import Mathlib

/-! # Community socket (`lib/Socket/community`, `lib/Socket/index`): embedding and properties

The module builds request payloads, sends them through the socket's `query`
primitive, and parses response payloads into group metadata.  Payloads are
trees of `{tag, attrs, content}`.

Conventions of the embedding:

* a JavaScript value that may be `undefined` (or `null`) is an `Option`;
* an attribute map is an association list from names to strings, read by
  `getAttr`; an entry whose value would be `undefined` is left out, since
  reading it gives `undefined` either way;
* a truthiness test on an optional string is `truthy`: present and non-empty;
* an `async` function is a `Prog`: a tree of calls on the collaborators (the
  socket's `query`, the event emitter, the message store); `run` executes it
  to completion against a `Sock`, returning its outcome, the trace of effects
  performed and the state of the invite message object it may mutate;
* a number is a `JSNumber`: the non-negative integer it denotes, as a double.
-/

namespace Community

/-! ## Payload trees -/

/-- The `content` field of a payload: nothing, child nodes, a string or raw bytes. -/
inductive Content (α : Type) where
  | absent
  | nodes (children : List α)
  | text (s : String)
  | bytes (b : List UInt8)

/-- A structured payload `{tag, attrs, content}` (`BinaryNode`). -/
inductive BinaryNode where
  | mk (tag : String) (attrs : List (String × String)) (content : Content BinaryNode)

namespace BinaryNode

/-- The `tag` field. -/
def tag : BinaryNode → String
  | .mk t _ _ => t

/-- The `attrs` field. -/
def attrs : BinaryNode → List (String × String)
  | .mk _ a _ => a

/-- The `content` field. -/
def content : BinaryNode → Content BinaryNode
  | .mk _ _ c => c

/-- The child nodes when `content` is an array, and no children otherwise
(`Array.isArray(node.content)`). -/
def children : BinaryNode → List BinaryNode
  | .mk _ _ (.nodes cs) => cs
  | .mk _ _ _ => []

end BinaryNode

/-- Property read `attrs[name]`: the value bound to `name`, `none` for `undefined`. -/
def getAttr (attrs : List (String × String)) (name : String) : Option String :=
  attrs.lookup name

/-- JavaScript truthiness of a value that is a string or `undefined`. -/
def truthy : Option String → Bool
  | some s => s != ""
  | none => false

/-- The expression `x || d` for a string-or-undefined `x` and a string `d`. -/
def orElse (x : Option String) (d : String) : String :=
  match x with
  | some s => if s != "" then s else d
  | none => d

/-- The expression `x || undefined` (also `x || null`): an empty string becomes absent. -/
def orUndefined (x : Option String) : Option String :=
  match x with
  | some s => if s != "" then some s else none
  | none => none

/-! ## Numbers -/

/-- The numbers that occur in metadata.  A non-negative integer that a double
holds exactly is `int n`; `infinity` is `Infinity`; `coerced s` stands for the
number the runtime produces from a string `s` that is not a plain run of
decimal digits (a fraction, a signed or padded literal, `NaN`), which the
embedding does not evaluate. -/
inductive JSNumber where
  | int (n : Nat)
  | infinity
  | coerced (s : String)
  deriving DecidableEq, Repr

/-- Number of binary digits of `m`, computed with `fuel` halvings at most. -/
def bitLengthAux : Nat → Nat → Nat
  | 0, _ => 0
  | fuel + 1, m => if m = 0 then 0 else bitLengthAux fuel (m / 2) + 1

/-- Number of binary digits of `n`. -/
def bitLength (n : Nat) : Nat :=
  bitLengthAux n n

/-- The double nearest to the natural number `n` (ties to even), the way the
runtime stores an integer literal: exact below `2 ^ 53`, rounded to 53
significant bits above, `Infinity` from `2 ^ 1024` on. -/
def JSNumber.ofNat (n : Nat) : JSNumber :=
  if n < 2 ^ 53 then .int n
  else
    let e := bitLength n - 53
    let q := n / 2 ^ e
    let r := n % 2 ^ e
    let half := 2 ^ (e - 1)
    let q1 := if half < r ∨ (r = half ∧ q % 2 = 1) then q + 1 else q
    if q1 * 2 ^ e < 2 ^ 1024 then .int (q1 * 2 ^ e) else .infinity

/-- The natural number a run of decimal digits denotes (`0` for the empty run). -/
def decimalValue (s : String) : Nat :=
  s.data.foldl (fun acc c => 10 * acc + (c.toNat - 48)) 0

/-- Whether every character is one of `0`..`9`. -/
def isDecimal (s : String) : Bool :=
  s.data.all Char.isDigit

/-- String-to-number coercion (`Number(s)`, unary `+s`). -/
def toNumber (s : String) : JSNumber :=
  if isDecimal s then JSNumber.ofNat (decimalValue s) else .coerced s

/-- Number of decimal digits of `n`. -/
def decimalLength (n : Nat) : Nat :=
  (Nat.toDigits 10 n).length

/-- The search behind `Number.prototype.toString`: with `k` significant digits,
the multiple of `10 ^ (len - k)` just below or just above the double `x` that
the runtime reads back as `x` (the closer one when both do); `k` grows until
there is one. -/
def shortestFrom (x len : Nat) : Nat → Nat → Nat
  | 0, _ => x
  | fuel + 1, k =>
    let scale := 10 ^ (len - k)
    let lo := x / scale * scale
    let hi := lo + scale
    if JSNumber.ofNat lo = .int x then
      if JSNumber.ofNat hi = .int x then (if x - lo ≤ hi - x then lo else hi) else lo
    else if JSNumber.ofNat hi = .int x then hi
    else shortestFrom x len fuel (k + 1)

/-- The number with the fewest significant digits that the runtime reads back
as the integer-valued double `x`. -/
def shortestRoundTrip (x : Nat) : Nat :=
  shortestFrom x (decimalLength x) (decimalLength x) 1

/-- Exponent notation of `v`, as printed from `1e21` on: the significant digits
with a point after the first, then `e+` and the decimal exponent. -/
def exponentNotation (v : Nat) : String :=
  let digits := Nat.toDigits 10 v
  let significant := (digits.reverse.dropWhile (fun c => c == '0')).reverse
  let exponent := Nat.repr (digits.length - 1)
  match significant with
  | [] => "0"
  | [d] => String.mk [d] ++ "e+" ++ exponent
  | d :: rest => String.mk (d :: '.' :: rest) ++ "e+" ++ exponent

/-- `Number.prototype.toString` on an integer-valued double `x`.  Below `2 ^ 53`
consecutive integers are distinct doubles, so all digits are printed; from
there on the shortest digits that read back as `x` are printed, padded with
zeros below `1e21` and in exponent notation from `1e21` on. -/
def printDouble (x : Nat) : String :=
  if x < 2 ^ 53 then Nat.repr x
  else
    let v := shortestRoundTrip x
    if v < 10 ^ 21 then Nat.repr v else exponentNotation v

/-- `Number.prototype.toString` on a number given by the non-negative integer
`n` it was written as: the runtime holds the double nearest to `n` and prints
that double. -/
def numberToString (n : Nat) : String :=
  match JSNumber.ofNat n with
  | .int x => printDouble x
  | .infinity => "Infinity"
  | .coerced s => s

/-! ## Collaborators outside this module -/

/-- Helpers of `WABinary` whose results this module passes on without looking
inside them. -/
structure WABinary where
  /-- The string held by the first child with the given tag, when there is one. -/
  getBinaryNodeChildString : BinaryNode → String → Option String
  /-- Normalisation of a user identifier. -/
  jidNormalizedUser : String → String

/-- Modelled from the spec: `getBinaryNodeChild` of `WABinary` is not among the
sources.  It "locates a single nested payload node by tag name": the first
child carrying the tag, `undefined` when there is none or the content is not a
list of nodes. -/
def getBinaryNodeChild (node : BinaryNode) (childTag : String) : Option BinaryNode :=
  node.children.find? (fun c => c.tag == childTag)

/-- Modelled from the spec: `getBinaryNodeChildren` of `WABinary` is not among
the sources.  It selects the children carrying the tag, in payload order (the
spec's "ordered list of child payloads"). -/
def getBinaryNodeChildren (node : BinaryNode) (childTag : String) : List BinaryNode :=
  node.children.filter (fun c => c.tag == childTag)

/-- Modelled from the spec: `jidEncode` of `WABinary` is not among the sources.
Called with a user and a server only, it yields the canonical identifier: the
user followed by the domain separator `@` and the server ("a default domain
suffix is appended"). -/
def jidEncode (user : String) (server : String) : String :=
  user ++ "@" ++ server

/-- The method call `s.includes('@')`. -/
def includesAt (s : String) : Bool :=
  s.data.contains '@'

/-! ## Metadata -/

/-- One member of a community: identifier and role. -/
structure GroupParticipant where
  id : Option String
  admin : Option String
  deriving DecidableEq, Repr

/-- The record built by `extractCommunityMetadata`. -/
structure GroupMetadata where
  id : String
  subject : String
  subjectOwner : Option String
  subjectTime : JSNumber
  size : Nat
  creation : JSNumber
  owner : Option String
  desc : Option String
  descId : Option String
  linkedParent : Option String
  restrict : Bool
  announce : Bool
  isCommunity : Bool
  isCommunityAnnounce : Bool
  joinApprovalMode : Bool
  memberAddMode : Bool
  participants : List GroupParticipant
  ephemeralDuration : Option JSNumber
  addressingMode : Option String
  deriving DecidableEq, Repr

/-- What a failed call throws: the runtime's `TypeError` on a property read of
`undefined`, or a value thrown by a collaborator (transport, remote side). -/
inductive JSError where
  | typeError
  | thrown (e : String)
  deriving DecidableEq, Repr

/-- The argument of `Number(x || 0)`: a missing or empty attribute counts as `0`. -/
def numberOrZero (x : Option String) : JSNumber :=
  match x with
  | some s => if s != "" then toNumber s else .int 0
  | none => .int 0

/-- The identifier rule of `extractCommunityMetadata`: an `id` attribute that
contains `@` is kept, anything else is encoded under the server `g.us`. -/
def communityId (idAttr : Option String) : String :=
  match idAttr with
  | some s => if includesAt s then s else jidEncode (orElse (some s) "") "g.us"
  | none => jidEncode (orElse none "") "g.us"

/-- The metadata read off a `community` node (the body of
`extractCommunityMetadata` once the node has been located). -/
def communityMetadataOf (wa : WABinary) (community : BinaryNode) : GroupMetadata :=
  let descChild := getBinaryNodeChild community "description"
  let desc := descChild.bind (fun d => wa.getBinaryNodeChildString d "body")
  let descId := descChild.bind (fun d => getAttr d.attrs "id")
  let eph := (getBinaryNodeChild community "ephemeral").bind (fun n => getAttr n.attrs "expiration")
  let memberAddMode :=
    wa.getBinaryNodeChildString community "member_add_mode" == some "all_member_add"
  { id := communityId (getAttr community.attrs "id")
    subject := orElse (getAttr community.attrs "subject") ""
    subjectOwner := getAttr community.attrs "s_o"
    subjectTime := numberOrZero (getAttr community.attrs "s_t")
    size := (getBinaryNodeChildren community "participant").length
    creation := numberOrZero (getAttr community.attrs "creation")
    owner :=
      if truthy (getAttr community.attrs "creator") then
        (getAttr community.attrs "creator").map wa.jidNormalizedUser
      else none
    desc := desc
    descId := descId
    linkedParent :=
      orUndefined ((getBinaryNodeChild community "linked_parent").bind
        (fun n => getAttr n.attrs "jid"))
    restrict := (getBinaryNodeChild community "locked").isSome
    announce := (getBinaryNodeChild community "announcement").isSome
    isCommunity := (getBinaryNodeChild community "parent").isSome
    isCommunityAnnounce := (getBinaryNodeChild community "default_sub_community").isSome
    joinApprovalMode := (getBinaryNodeChild community "membership_approval_mode").isSome
    memberAddMode := memberAddMode
    participants :=
      (getBinaryNodeChildren community "participant").map
        (fun p => { id := getAttr p.attrs "jid", admin := orUndefined (getAttr p.attrs "type") })
    ephemeralDuration := if truthy eph then eph.map toNumber else none
    addressingMode := wa.getBinaryNodeChildString community "addressing_mode" }

/-- The function `extractCommunityMetadata`: locate the `community` child of the
response and read the metadata off it.  Without that child the first read of
`community.attrs` throws. -/
def extractCommunityMetadata (wa : WABinary) (result : BinaryNode) :
    Except JSError GroupMetadata :=
  match getBinaryNodeChild result "community" with
  | none => .error .typeError
  | some community => .ok (communityMetadataOf wa community)

/-! ## Messages, events and effects -/

/-- The key of a message (`WAMessageKey`). -/
structure WAMessageKey where
  remoteJid : Option String
  fromMe : Option Bool
  id : Option String
  participant : Option String
  deriving DecidableEq, Repr

/-- The invite message handed to `communityAcceptInviteV4`, with the fields the
function reads taken as present; the function mutates `inviteExpiration` and
`inviteCode` in place. -/
structure GroupInviteMessage where
  groupJid : String
  inviteCode : String
  inviteExpiration : Nat
  groupName : Option String
  caption : Option String
  deriving DecidableEq, Repr

/-- The message passed to `upsertMessage`. -/
structure WebMessageInfo where
  key : WAMessageKey
  messageStubType : Nat
  messageStubParameters : List (Option String)
  participant : Option String
  messageTimestamp : Nat
  deriving DecidableEq, Repr

/-- One entry of a `messages.update` payload:
`{key, update: {message: {groupInviteMessage}}}`. -/
structure MessageUpdate where
  key : WAMessageKey
  groupInviteMessage : GroupInviteMessage
  deriving DecidableEq, Repr

/-- The payloads this module hands to `ev.emit`. -/
inductive EventPayload where
  | groups (metas : List GroupMetadata)
  | messages (updates : List MessageUpdate)
  deriving DecidableEq, Repr

/-- One observable action on a collaborator, in the order performed. -/
inductive Effect where
  | query (request : BinaryNode)
  | groupMetadata (jid : String)
  | cleanDirtyBits (type : String)
  | upsertMessage (msg : WebMessageInfo) (type : String)
  | emit (event : String) (payload : EventPayload)
  | logInfo (msg : String) (node : BinaryNode)
  | consoleError (msg : String) (error : JSError)

/-- The socket the module is layered on.  Each collaborator answers as a
function of the effects performed so far, so that its answers may change over
time; `userId` is `sock.user?.id` and `meJson` is
`JSON.stringify(authState.creds.me)`. -/
structure Sock where
  query : List Effect → BinaryNode → Except JSError BinaryNode
  groupMetadata : List Effect → String → Except JSError (Option GroupMetadata)
  cleanDirtyBits : List Effect → String → Except JSError Unit
  upsertMessage : List Effect → WebMessageInfo → String → Except JSError Unit
  generateMessageID : List Effect → String
  generateMessageIDV2 : List Effect → Option String → String
  unixTimestampSeconds : List Effect → Nat
  userId : Option String
  meJson : Option String

/-- What a run can change: the trace of effects, and the caller's invite
message object. -/
structure World where
  trace : List Effect
  inviteMessage : GroupInviteMessage

/-- An asynchronous computation: a tree of collaborator calls.  An awaited call
that fails aborts the computation with the error thrown; the metadata lookup is
the one call the module wraps in `try`/`catch`, so it hands its outcome to the
continuation. -/
inductive Prog (α : Type) where
  | pure (a : α)
  | throw (e : JSError)
  | query (request : BinaryNode) (k : BinaryNode → Prog α)
  | groupMetadata (jid : String) (k : Except JSError (Option GroupMetadata) → Prog α)
  | cleanDirtyBits (type : String) (k : Prog α)
  | upsertMessage (msg : WebMessageInfo) (type : String) (k : Prog α)
  | emit (event : String) (payload : EventPayload) (k : Prog α)
  | logInfo (msg : String) (node : BinaryNode) (k : Prog α)
  | consoleError (msg : String) (error : JSError) (k : Prog α)
  | generateMessageID (k : String → Prog α)
  | generateMessageIDV2 (userId : Option String) (k : String → Prog α)
  | unixTimestampSeconds (k : Nat → Prog α)
  | readInvite (k : GroupInviteMessage → Prog α)
  | writeInvite (m : GroupInviteMessage) (k : Prog α)

namespace Prog

/-- Sequencing: run `m`, then `f` on its result. -/
def bind {α β : Type} : Prog α → (α → Prog β) → Prog β
  | .pure a, f => f a
  | .throw e, _ => .throw e
  | .query r k, f => .query r (fun x => bind (k x) f)
  | .groupMetadata j k, f => .groupMetadata j (fun x => bind (k x) f)
  | .cleanDirtyBits ty k, f => .cleanDirtyBits ty (bind k f)
  | .upsertMessage m ty k, f => .upsertMessage m ty (bind k f)
  | .emit ev pl k, f => .emit ev pl (bind k f)
  | .logInfo msg n k, f => .logInfo msg n (bind k f)
  | .consoleError msg e k, f => .consoleError msg e (bind k f)
  | .generateMessageID k, f => .generateMessageID (fun x => bind (k x) f)
  | .generateMessageIDV2 u k, f => .generateMessageIDV2 u (fun x => bind (k x) f)
  | .unixTimestampSeconds k, f => .unixTimestampSeconds (fun x => bind (k x) f)
  | .readInvite k, f => .readInvite (fun x => bind (k x) f)
  | .writeInvite m k, f => .writeInvite m (bind k f)

instance : Monad Prog where
  pure := Prog.pure
  bind := Prog.bind

/-- A synchronous step that may throw. -/
def ofExcept {α : Type} : Except JSError α → Prog α
  | .ok a => .pure a
  | .error e => .throw e

end Prog

/-- The world after one more effect. -/
def World.record (w : World) (eff : Effect) : World :=
  { w with trace := w.trace ++ [eff] }

/-- Execution of a computation against a socket: the outcome and the world
it leaves. -/
def run {α : Type} (sock : Sock) : Prog α → World → Except JSError α × World
  | .pure a, w => (.ok a, w)
  | .throw e, w => (.error e, w)
  | .query r k, w =>
    match sock.query w.trace r with
    | .ok x => run sock (k x) (w.record (.query r))
    | .error e => (.error e, w.record (.query r))
  | .groupMetadata j k, w =>
    run sock (k (sock.groupMetadata w.trace j)) (w.record (.groupMetadata j))
  | .cleanDirtyBits ty k, w =>
    match sock.cleanDirtyBits w.trace ty with
    | .ok _ => run sock k (w.record (.cleanDirtyBits ty))
    | .error e => (.error e, w.record (.cleanDirtyBits ty))
  | .upsertMessage m ty k, w =>
    match sock.upsertMessage w.trace m ty with
    | .ok _ => run sock k (w.record (.upsertMessage m ty))
    | .error e => (.error e, w.record (.upsertMessage m ty))
  | .emit ev pl k, w => run sock k (w.record (.emit ev pl))
  | .logInfo msg n k, w => run sock k (w.record (.logInfo msg n))
  | .consoleError msg e k, w => run sock k (w.record (.consoleError msg e))
  | .generateMessageID k, w => run sock (k (sock.generateMessageID w.trace)) w
  | .generateMessageIDV2 u k, w => run sock (k (sock.generateMessageIDV2 w.trace u)) w
  | .unixTimestampSeconds k, w => run sock (k (sock.unixTimestampSeconds w.trace)) w
  | .readInvite k, w => run sock (k w.inviteMessage) w
  | .writeInvite m k, w => run sock k { w with inviteMessage := m }

/-! ## Calls on collaborators, as computations -/

namespace Call

/-- The awaited call `query(request)`. -/
def query (request : BinaryNode) : Prog BinaryNode :=
  .query request .pure

/-- The awaited call `sock.groupMetadata(jid)` outside any `try`: a failure propagates. -/
def groupMetadata (jid : String) : Prog (Option GroupMetadata) :=
  .groupMetadata jid Prog.ofExcept

/-- The awaited call `sock.cleanDirtyBits(type)`. -/
def cleanDirtyBits (type : String) : Prog Unit :=
  .cleanDirtyBits type (.pure ())

/-- The awaited call `upsertMessage(msg, type)`. -/
def upsertMessage (msg : WebMessageInfo) (type : String) : Prog Unit :=
  .upsertMessage msg type (.pure ())

/-- The call `ev.emit(event, payload)`. -/
def emit (event : String) (payload : EventPayload) : Prog Unit :=
  .emit event payload (.pure ())

/-- The call `logger.info({ node }, msg)`. -/
def logInfo (msg : String) (node : BinaryNode) : Prog Unit :=
  .logInfo msg node (.pure ())

/-- The call `console.error(msg, error)`. -/
def consoleError (msg : String) (error : JSError) : Prog Unit :=
  .consoleError msg error (.pure ())

/-- The call `generateMessageID()`. -/
def generateMessageID : Prog String :=
  .generateMessageID .pure

/-- The call `generateMessageIDV2(userId)`. -/
def generateMessageIDV2 (userId : Option String) : Prog String :=
  .generateMessageIDV2 userId .pure

/-- The call `unixTimestampSeconds()`. -/
def unixTimestampSeconds : Prog Nat :=
  .unixTimestampSeconds .pure

/-- A read of the caller's invite message object. -/
def readInvite : Prog GroupInviteMessage :=
  .readInvite .pure

/-- An in-place update of the caller's invite message object. -/
def writeInvite (m : GroupInviteMessage) : Prog Unit :=
  .writeInvite m (.pure ())

end Call

/-! ## The operations of `makeCommunitiesSocket` -/

/-- An object literal entry whose value may be `undefined`. -/
def attrOpt (name : String) (v : Option String) : List (String × String) :=
  match v with
  | some s => [(name, s)]
  | none => []

/-- The bytes of `Buffer.from(s, 'utf-8')`. -/
def utf8 (s : String) : List UInt8 :=
  s.data.flatMap String.utf8EncodeChar

/-- The children with the given tag of a node that may be `undefined`; an
absent node has none. -/
def getBinaryNodeChildrenOpt (node : Option BinaryNode) (childTag : String) :
    List BinaryNode :=
  match node with
  | some n => getBinaryNodeChildren n childTag
  | none => []

/-- The function `communityQuery`: an `iq` request in the `w:g2` namespace. -/
def communityQuery (jid type : String) (content : List BinaryNode) : Prog BinaryNode :=
  Call.query (.mk "iq" [("type", type), ("xmlns", "w:g2"), ("to", jid)] (.nodes content))

/-- The function `communityMetadata`. -/
def communityMetadata (wa : WABinary) (jid : String) : Prog GroupMetadata := do
  let result ← communityQuery jid "get" [.mk "query" [("request", "interactive")] .absent]
  Prog.ofExcept (extractCommunityMetadata wa result)

/-- The request of `communityFetchAllParticipating`: an unfiltered
`participating` query addressed to `@g.us`. -/
def fetchAllRequest : BinaryNode :=
  .mk "iq" [("to", "@g.us"), ("xmlns", "w:g2"), ("type", "get")]
    (.nodes [.mk "participating" []
      (.nodes [.mk "participants" [] .absent, .mk "description" [] .absent])])

/-- The assignment `data[key] = v` on an object whose keys are not array
indices: an existing key keeps its position, a new key goes last. -/
def objectSet {α : Type} (data : List (String × α)) (key : String) (v : α) :
    List (String × α) :=
  if data.any (fun kv => kv.1 == key) then
    data.map (fun kv => if kv.1 == key then (key, v) else kv)
  else data ++ [(key, v)]

/-- The loop of `communityFetchAllParticipating` over the `community` nodes. -/
def collectCommunities (wa : WABinary) (communities : List BinaryNode) :
    Except JSError (List (String × GroupMetadata)) :=
  communities.foldlM
    (fun data communityNode => do
      let metadata ← extractCommunityMetadata wa (.mk "result" [] (.nodes [communityNode]))
      pure (objectSet data metadata.id metadata))
    []

/-- The object `data` that `communityFetchAllParticipating` builds from the
response: empty without a `communities` child. -/
def participatingData (wa : WABinary) (result : BinaryNode) :
    Except JSError (List (String × GroupMetadata)) :=
  match getBinaryNodeChild result "communities" with
  | some communitiesChild =>
    collectCommunities wa (getBinaryNodeChildren communitiesChild "community")
  | none => .ok []

/-- The function `communityFetchAllParticipating`; the event payload is
`Object.values(data)`. -/
def communityFetchAllParticipating (wa : WABinary) :
    Prog (List (String × GroupMetadata)) := do
  let result ← Call.query fetchAllRequest
  let data ← Prog.ofExcept (participatingData wa result)
  Call.emit "groups.update" (.groups (data.map (fun kv => kv.2)))
  pure data

/-- The template literal `${id}@g.us`. -/
def groupJidOf (id : Option String) : String :=
  id.getD "undefined" ++ "@g.us"

/-- The function `parseGroupResult`. -/
def parseGroupResult (node : BinaryNode) : Prog (Option GroupMetadata) := do
  Call.logInfo "parseGroupResult" node
  match getBinaryNodeChild node "group" with
  | some groupNode =>
    Call.logInfo "groupNode" groupNode
    Prog.groupMetadata (groupJidOf (getAttr groupNode.attrs "id")) (fun outcome =>
      match outcome with
      | .ok metadata => .pure metadata
      | .error error => do
        Call.consoleError "Error parsing group metadata:" error
        pure none)
  | none => pure none

/-- The handler registered for `CB:ib,,dirty`. -/
def dirtyHandler (wa : WABinary) (node : BinaryNode) : Prog Unit :=
  match getBinaryNodeChild node "dirty" with
  | none => .throw .typeError
  | some dirty =>
    if getAttr dirty.attrs "type" != some "communities" then pure ()
    else do
      let _ ← communityFetchAllParticipating wa
      Call.cleanDirtyBits "groups"

/-- The function `communityCreate`. -/
def communityCreate (subject : String) (body : Option String) :
    Prog (Option GroupMetadata) := do
  let generated ← Call.generateMessageID
  let descriptionId : String := ⟨generated.data.take 12⟩
  let result ← communityQuery "@g.us" "set"
    [.mk "create" [("subject", subject)]
      (.nodes
        [.mk "description" [("id", descriptionId)]
          (.nodes [.mk "body" [] (.bytes (utf8 (orElse body "")))]),
         .mk "parent" [("default_membership_approval_mode", "request_required")] .absent,
         .mk "allow_non_admin_sub_group_creation" [] .absent,
         .mk "create_general_chat" [] .absent])]
  parseGroupResult result

/-- The function `communityCreateGroup`. -/
def communityCreateGroup (subject : String) (participants : List String)
    (parentCommunityJid : String) : Prog (Option GroupMetadata) := do
  let key ← Call.generateMessageIDV2 none
  let result ← communityQuery "@g.us" "set"
    [.mk "create" [("subject", subject), ("key", key)]
      (.nodes
        (participants.map (fun jid => BinaryNode.mk "participant" [("jid", jid)] .absent) ++
          [.mk "linked_parent" [("jid", parentCommunityJid)] .absent]))]
  parseGroupResult result

/-- The function `communityLeave`. -/
def communityLeave (id : String) : Prog Unit := do
  let _ ← communityQuery "@g.us" "set"
    [.mk "leave" [] (.nodes [.mk "community" [("id", id)] .absent])]
  pure ()

/-- The function `communityUpdateSubject`. -/
def communityUpdateSubject (jid subject : String) : Prog Unit := do
  let _ ← communityQuery jid "set" [.mk "subject" [] (.bytes (utf8 subject))]
  pure ()

/-- The function `communityLinkGroup`. -/
def communityLinkGroup (groupJid parentCommunityJid : String) : Prog Unit := do
  let _ ← communityQuery parentCommunityJid "set"
    [.mk "links" []
      (.nodes [.mk "link" [("link_type", "sub_group")]
        (.nodes [.mk "group" [("jid", groupJid)] .absent])])]
  pure ()

/-- The function `communityUnlinkGroup`. -/
def communityUnlinkGroup (groupJid parentCommunityJid : String) : Prog Unit := do
  let _ ← communityQuery parentCommunityJid "set"
    [.mk "unlink" [("unlink_type", "sub_group")]
      (.nodes [.mk "group" [("jid", groupJid)] .absent])]
  pure ()

/-- One entry of `linkedGroups` in the result of `communityFetchLinkedGroups`. -/
structure LinkedGroup where
  id : Option String
  subject : String
  creation : Option JSNumber
  owner : Option String
  size : Option JSNumber
  deriving DecidableEq, Repr

/-- The result of `communityFetchLinkedGroups`. -/
structure LinkedGroups where
  communityJid : String
  isCommunity : Bool
  linkedGroups : List LinkedGroup
  deriving DecidableEq, Repr

/-- The summary pushed for one `group` node in `communityFetchLinkedGroups`. -/
def linkedGroupOf (wa : WABinary) (groupNode : BinaryNode) : LinkedGroup :=
  { id :=
      if truthy (getAttr groupNode.attrs "id") then
        (getAttr groupNode.attrs "id").map (fun id => jidEncode id "g.us")
      else none
    subject := orElse (getAttr groupNode.attrs "subject") ""
    creation :=
      if truthy (getAttr groupNode.attrs "creation") then
        (getAttr groupNode.attrs "creation").map toNumber
      else none
    owner :=
      if truthy (getAttr groupNode.attrs "creator") then
        (getAttr groupNode.attrs "creator").map wa.jidNormalizedUser
      else none
    size :=
      if truthy (getAttr groupNode.attrs "size") then
        (getAttr groupNode.attrs "size").map toNumber
      else none }

/-- The function `communityFetchLinkedGroups`. -/
def communityFetchLinkedGroups (wa : WABinary) (jid : String) : Prog LinkedGroups := do
  let metadata ← Call.groupMetadata jid
  match metadata with
  | none => .throw .typeError
  | some metadata =>
    let communityJid := if truthy metadata.linkedParent then metadata.linkedParent.getD jid else jid
    let isCommunity := !truthy metadata.linkedParent
    let result ← communityQuery communityJid "get" [.mk "sub_groups" [] .absent]
    let linkedGroupsData :=
      match getBinaryNodeChild result "sub_groups" with
      | some subGroupsNode => (getBinaryNodeChildren subGroupsNode "group").map (linkedGroupOf wa)
      | none => []
    pure { communityJid := communityJid, isCommunity := isCommunity,
           linkedGroups := linkedGroupsData }

/-- The function `communityRequestParticipantsList`. -/
def communityRequestParticipantsList (jid : String) : Prog (List (List (String × String))) := do
  let result ← communityQuery jid "get" [.mk "membership_approval_requests" [] .absent]
  let node := getBinaryNodeChild result "membership_approval_requests"
  let participants := getBinaryNodeChildrenOpt node "membership_approval_request"
  pure (participants.map (fun v => v.attrs))

/-- One entry of the result of the participant update operations. -/
structure ParticipantResult where
  status : String
  jid : Option String
  content : Option BinaryNode

/-- The function `communityRequestParticipantsUpdate`. -/
def communityRequestParticipantsUpdate (jid : String) (participants : List String)
    (action : String) : Prog (List ParticipantResult) := do
  let result ← communityQuery jid "set"
    [.mk "membership_requests_action" []
      (.nodes [.mk action []
        (.nodes (participants.map
          (fun jid => BinaryNode.mk "participant" [("jid", jid)] .absent)))])]
  let node := getBinaryNodeChild result "membership_requests_action"
  let nodeAction := node.bind (fun n => getBinaryNodeChild n action)
  let participantsAffected := getBinaryNodeChildrenOpt nodeAction "participant"
  pure (participantsAffected.map (fun p =>
    { status := orElse (getAttr p.attrs "error") "200", jid := getAttr p.attrs "jid",
      content := none }))

/-- The function `communityParticipantsUpdate`. -/
def communityParticipantsUpdate (jid : String) (participants : List String)
    (action : String) : Prog (List ParticipantResult) := do
  let result ← communityQuery jid "set"
    [.mk action (if action == "remove" then [("linked_groups", "true")] else [])
      (.nodes (participants.map
        (fun jid => BinaryNode.mk "participant" [("jid", jid)] .absent)))]
  let node := getBinaryNodeChild result action
  let participantsAffected := getBinaryNodeChildrenOpt node "participant"
  pure (participantsAffected.map (fun p =>
    { status := orElse (getAttr p.attrs "error") "200", jid := getAttr p.attrs "jid",
      content := some p }))

/-- The function `communityUpdateDescription`. -/
def communityUpdateDescription (wa : WABinary) (jid : String) (description : Option String) :
    Prog Unit := do
  let metadata ← communityMetadata wa jid
  let prev := metadata.descId
  let first ←
    if truthy description then do
      let id ← Call.generateMessageID
      pure [("id", id)]
    else pure [("delete", "true")]
  let _ ← communityQuery jid "set"
    [.mk "description"
      (first ++ (if truthy prev then attrOpt "prev" prev else []))
      (match description with
       | some d =>
         if d != "" then .nodes [.mk "body" [] (.bytes (utf8 d))] else .absent
       | none => .absent)]
  pure ()

/-- The function `communityInviteCode`. -/
def communityInviteCode (jid : String) : Prog (Option String) := do
  let result ← communityQuery jid "get" [.mk "invite" [] .absent]
  let inviteNode := getBinaryNodeChild result "invite"
  pure (inviteNode.bind (fun n => getAttr n.attrs "code"))

/-- The function `communityRevokeInvite`. -/
def communityRevokeInvite (jid : String) : Prog (Option String) := do
  let result ← communityQuery jid "set" [.mk "invite" [] .absent]
  let inviteNode := getBinaryNodeChild result "invite"
  pure (inviteNode.bind (fun n => getAttr n.attrs "code"))

/-- The function `communityAcceptInvite`. -/
def communityAcceptInvite (code : String) : Prog (Option String) := do
  let results ← communityQuery "@g.us" "set" [.mk "invite" [("code", code)] .absent]
  let result := getBinaryNodeChild results "community"
  pure (result.bind (fun n => getAttr n.attrs "jid"))

/-- The function `communityRevokeInviteV4`; a response node is an object, so
`!!result` is `true`. -/
def communityRevokeInviteV4 (communityJid invitedJid : String) : Prog Bool := do
  let _ ← communityQuery communityJid "set"
    [.mk "revoke" [] (.nodes [.mk "participant" [("jid", invitedJid)] .absent])]
  pure true

/-- The `key` argument of `communityAcceptInviteV4`: a bare identifier or a
message key. -/
inductive KeyArg where
  | jid (s : String)
  | key (k : WAMessageKey)

/-- The statement `key = typeof key === 'string' ? { remoteJid: key } : key`. -/
def KeyArg.normalize : KeyArg → WAMessageKey
  | .jid s => { remoteJid := some s, fromMe := none, id := none, participant := none }
  | .key k => k

/-- The request sent by `communityAcceptInviteV4`. -/
def acceptRequest (key : WAMessageKey) (inviteMessage : GroupInviteMessage) : BinaryNode :=
  .mk "iq" [("type", "set"), ("xmlns", "w:g2"), ("to", inviteMessage.groupJid)]
    (.nodes [.mk "accept"
      ([("code", inviteMessage.inviteCode),
        ("expiration", numberToString inviteMessage.inviteExpiration)] ++
        attrOpt "admin" key.remoteJid) .absent])

/-- The function wrapped by `ev.createBufferedFunction` to give
`communityAcceptInviteV4`. -/
def communityAcceptInviteV4 (sock : Sock) (keyArg : KeyArg) : Prog (Option String) := do
  let key := keyArg.normalize
  let inviteMessage ← Call.readInvite
  let results ← communityQuery inviteMessage.groupJid "set"
    [.mk "accept"
      ([("code", inviteMessage.inviteCode),
        ("expiration", numberToString inviteMessage.inviteExpiration)] ++
        attrOpt "admin" key.remoteJid) .absent]
  if truthy key.id then
    Call.writeInvite { inviteMessage with inviteExpiration := 0, inviteCode := "" }
    let consumed ← Call.readInvite
    Call.emit "messages.update" (.messages [{ key := key, groupInviteMessage := consumed }])
  let stubId ← Call.generateMessageIDV2 sock.userId
  let now ← Call.unixTimestampSeconds
  Call.upsertMessage
    { key := { remoteJid := some inviteMessage.groupJid, id := some stubId,
               fromMe := some false, participant := key.remoteJid }
      messageStubType := 21
      messageStubParameters := [sock.meJson]
      participant := key.remoteJid
      messageTimestamp := now }
    "notify"
  pure (getAttr results.attrs "from")

/-- The function `communityGetInviteInfo`. -/
def communityGetInviteInfo (wa : WABinary) (code : String) : Prog GroupMetadata := do
  let results ← communityQuery "@g.us" "get" [.mk "invite" [("code", code)] .absent]
  Prog.ofExcept (extractCommunityMetadata wa results)

/-- The child node chosen by `communityToggleEphemeral`.  The expiration is a
count of seconds: the argument ranges over the numbers that are non-negative
integers, each given by the natural number it was written as. -/
def ephemeralContent (ephemeralExpiration : Nat) : BinaryNode :=
  if ephemeralExpiration != 0 then
    .mk "ephemeral" [("expiration", numberToString ephemeralExpiration)] .absent
  else .mk "not_ephemeral" [] .absent

/-- The function `communityToggleEphemeral`. -/
def communityToggleEphemeral (jid : String) (ephemeralExpiration : Nat) : Prog Unit := do
  let _ ← communityQuery jid "set" [ephemeralContent ephemeralExpiration]
  pure ()

/-- The function `communitySettingUpdate`. -/
def communitySettingUpdate (jid setting : String) : Prog Unit := do
  let _ ← communityQuery jid "set" [.mk setting [] .absent]
  pure ()

/-- The function `communityMemberAddMode`. -/
def communityMemberAddMode (jid mode : String) : Prog Unit := do
  let _ ← communityQuery jid "set" [.mk "member_add_mode" [] (.text mode)]
  pure ()

/-- The function `communityJoinApprovalMode`. -/
def communityJoinApprovalMode (jid mode : String) : Prog Unit := do
  let _ ← communityQuery jid "set"
    [.mk "membership_approval_mode" []
      (.nodes [.mk "community_join" [("state", mode)] .absent])]
  pure ()

/-! ## `makeWASocket` (`lib/Socket/index`) -/

/-- A value held by a configuration object.  A function-valued entry that is a
predicate on history messages is `predicate`; any other object or function is
`object`, which the code here only tests for being `undefined`. -/
inductive ConfigValue (μ : Type) where
  | undefined
  | null
  | bool (b : Bool)
  | number (n : Nat)
  | string (s : String)
  | predicate (p : μ → Bool)
  | object (description : String)

/-- The test `v === undefined`. -/
def ConfigValue.isUndefined {μ : Type} : ConfigValue μ → Bool
  | .undefined => true
  | _ => false

/-- The coercion `!!v`. -/
def ConfigValue.truthy {μ : Type} : ConfigValue μ → Bool
  | .undefined => false
  | .null => false
  | .bool b => b
  | .number n => n != 0
  | .string s => s != ""
  | .predicate _ => true
  | .object _ => true

/-- A configuration object: for each key, the value bound to it, or `none` when
the object has no such key. -/
abbrev SocketConfig (μ : Type) : Type := String → Option (ConfigValue μ)

/-- A property read `config[key]`: `undefined` for a key the object lacks. -/
def SocketConfig.get {μ : Type} (config : SocketConfig μ) (key : String) : ConfigValue μ :=
  (config key).getD .undefined

/-- The assignment `config[key] = v`. -/
def SocketConfig.set {μ : Type} (config : SocketConfig μ) (key : String) (v : ConfigValue μ) :
    SocketConfig μ :=
  fun k => if k = key then some v else config k

/-- The object literal `{ ...defaults, ...config }`: the keys of `config`
first, the keys of `defaults` for the rest. -/
def objectSpread {μ : Type} (defaults config : SocketConfig μ) : SocketConfig μ :=
  fun k =>
    match config k with
    | some v => some v
    | none => defaults k

/-- The function `makeWASocket`.  The default connection config (module
`Defaults`) and `makeCommunitiesSocket` are parameters; the predicate installed
for `shouldSyncHistoryMessage` reads `newConfig.syncFullHistory`, which no
later statement of the function changes. -/
def makeWASocket {μ σ : Type} (makeCommunitiesSocket : SocketConfig μ → σ)
    (defaults config : SocketConfig μ) : σ :=
  let newConfig := objectSpread defaults config
  let newConfig :=
    if (config.get "shouldSyncHistoryMessage").isUndefined then
      newConfig.set "shouldSyncHistoryMessage"
        (.predicate (fun _ => (newConfig.get "syncFullHistory").truthy))
    else newConfig
  makeCommunitiesSocket newConfig

/-! ## Definitions used to state the properties -/

/-- The invite message once `communityAcceptInviteV4` has marked it consumed. -/
def consumedInvite (inviteMessage : GroupInviteMessage) : GroupInviteMessage :=
  { inviteMessage with inviteExpiration := 0, inviteCode := "" }

/-- The effects of `communityAcceptInviteV4` between its query and its call of
`upsertMessage`: the `messages.update` event, when the key has an id. -/
def acceptUpdateEvents (key : WAMessageKey) (inviteMessage : GroupInviteMessage) :
    List Effect :=
  if truthy key.id then
    [.emit "messages.update"
      (.messages [{ key := key, groupInviteMessage := consumedInvite inviteMessage }])]
  else []

/-- The synthetic message `communityAcceptInviteV4` hands to `upsertMessage`,
given the trace at the time of the call. -/
def acceptStub (sock : Sock) (key : WAMessageKey) (inviteMessage : GroupInviteMessage)
    (trace : List Effect) : WebMessageInfo :=
  { key := { remoteJid := some inviteMessage.groupJid
             id := some (sock.generateMessageIDV2 trace sock.userId)
             fromMe := some false
             participant := key.remoteJid }
    messageStubType := 21
    messageStubParameters := [sock.meJson]
    participant := key.remoteJid
    messageTimestamp := sock.unixTimestampSeconds trace }

/-- The operations exported by `makeCommunitiesSocket`, with their arguments. -/
inductive Operation where
  | metadata (jid : String)
  | create (subject : String) (body : Option String)
  | createGroup (subject : String) (participants : List String) (parentCommunityJid : String)
  | leave (id : String)
  | updateSubject (jid subject : String)
  | linkGroup (groupJid parentCommunityJid : String)
  | unlinkGroup (groupJid parentCommunityJid : String)
  | fetchLinkedGroups (jid : String)
  | requestParticipantsList (jid : String)
  | requestParticipantsUpdate (jid : String) (participants : List String) (action : String)
  | participantsUpdate (jid : String) (participants : List String) (action : String)
  | updateDescription (jid : String) (description : Option String)
  | inviteCode (jid : String)
  | revokeInvite (jid : String)
  | acceptInvite (code : String)
  | revokeInviteV4 (communityJid invitedJid : String)
  | acceptInviteV4 (key : KeyArg)
  | getInviteInfo (code : String)
  | toggleEphemeral (jid : String) (ephemeralExpiration : Nat)
  | settingUpdate (jid setting : String)
  | memberAddMode (jid mode : String)
  | joinApprovalMode (jid mode : String)
  | fetchAllParticipating

/-- A computation with its result dropped; its effects and its failure stay. -/
def Prog.discard {α : Type} (m : Prog α) : Prog Unit :=
  Prog.bind m (fun _ => .pure ())

/-- The computation an operation stands for. -/
def perform (sock : Sock) (wa : WABinary) : Operation → Prog Unit
  | .metadata jid => (communityMetadata wa jid).discard
  | .create subject body => (communityCreate subject body).discard
  | .createGroup subject participants parent =>
    (communityCreateGroup subject participants parent).discard
  | .leave id => communityLeave id
  | .updateSubject jid subject => communityUpdateSubject jid subject
  | .linkGroup groupJid parent => communityLinkGroup groupJid parent
  | .unlinkGroup groupJid parent => communityUnlinkGroup groupJid parent
  | .fetchLinkedGroups jid => (communityFetchLinkedGroups wa jid).discard
  | .requestParticipantsList jid => (communityRequestParticipantsList jid).discard
  | .requestParticipantsUpdate jid participants action =>
    (communityRequestParticipantsUpdate jid participants action).discard
  | .participantsUpdate jid participants action =>
    (communityParticipantsUpdate jid participants action).discard
  | .updateDescription jid description => communityUpdateDescription wa jid description
  | .inviteCode jid => (communityInviteCode jid).discard
  | .revokeInvite jid => (communityRevokeInvite jid).discard
  | .acceptInvite code => (communityAcceptInvite code).discard
  | .revokeInviteV4 communityJid invitedJid =>
    (communityRevokeInviteV4 communityJid invitedJid).discard
  | .acceptInviteV4 key => (communityAcceptInviteV4 sock key).discard
  | .getInviteInfo code => (communityGetInviteInfo wa code).discard
  | .toggleEphemeral jid n => communityToggleEphemeral jid n
  | .settingUpdate jid setting => communitySettingUpdate jid setting
  | .memberAddMode jid mode => communityMemberAddMode jid mode
  | .joinApprovalMode jid mode => communityJoinApprovalMode jid mode
  | .fetchAllParticipating => (communityFetchAllParticipating wa).discard

/-- The request carried by an effect, when the effect is a query. -/
def Effect.request? : Effect → Option BinaryNode
  | .query r => some r
  | _ => none

/-- The payloads a run dispatches through `query`, in order: the queries among
the effects the run adds to the trace. -/
def dispatched {α : Type} (sock : Sock) (m : Prog α) (w : World) : List BinaryNode :=
  ((run sock m w).2.trace.drop w.trace.length).filterMap Effect.request?

/-- The request builders: the operations that do no more than build one
payload and dispatch it (create, leave, rename, link, unlink, the invite
operations, and the toggles of ephemeral timer, settings, add mode and
approval mode). -/
def Operation.isBuilder : Operation → Bool
  | .create _ _ => true
  | .createGroup _ _ _ => true
  | .leave _ => true
  | .updateSubject _ _ => true
  | .linkGroup _ _ => true
  | .unlinkGroup _ _ => true
  | .inviteCode _ => true
  | .revokeInvite _ => true
  | .acceptInvite _ => true
  | .revokeInviteV4 _ _ => true
  | .acceptInviteV4 _ => true
  | .getInviteInfo _ => true
  | .toggleEphemeral _ _ => true
  | .settingUpdate _ _ => true
  | .memberAddMode _ _ => true
  | .joinApprovalMode _ _ => true
  | _ => false

/-- The builders that put a freshly generated identifier into their payload. -/
def Operation.generatesId : Operation → Bool
  | .create _ _ => true
  | .createGroup _ _ _ => true
  | _ => false

/-- The effects an operation performs before its first query: the metadata
lookup for `communityFetchLinkedGroups`, none for every other operation. -/
def Operation.effectsBeforeQuery : Operation → List Effect
  | .fetchLinkedGroups jid => [.groupMetadata jid]
  | _ => []

/-! ## Sample data used to instantiate the theorems -/

/-- A concrete `WABinary`: the string of a child is its text content, and
identifiers are left as they are. -/
def exampleWABinary : WABinary where
  getBinaryNodeChildString := fun node childTag =>
    match getBinaryNodeChild node childTag with
    | some (.mk _ _ (.text s)) => some s
    | _ => none
  jidNormalizedUser := fun jid => jid

/-- A response holding one `community` node with the given attributes and children. -/
def responseWith (attrs : List (String × String)) (children : List BinaryNode) : BinaryNode :=
  .mk "iq" [("type", "result")] (.nodes [.mk "community" attrs (.nodes children)])

/-- A world in which nothing has happened yet. -/
def emptyWorld : World :=
  { trace := []
    inviteMessage :=
      { groupJid := "1203630@g.us", inviteCode := "AbCd", inviteExpiration := 1700000000,
        groupName := some "Neighbours", caption := none } }

/-- A socket on which every collaborator call succeeds with an empty answer. -/
def quietSock : Sock where
  query := fun _ _ => .ok (.mk "iq" [("type", "result"), ("from", "1203630@g.us")] .absent)
  groupMetadata := fun _ _ => .ok none
  cleanDirtyBits := fun _ _ => .ok ()
  upsertMessage := fun _ _ _ => .ok ()
  generateMessageID := fun _ => "3EB0F1E2D3C4B5A69788"
  generateMessageIDV2 := fun _ _ => "3EB0A1B2C3D4E5F60718"
  unixTimestampSeconds := fun _ => 1700000100
  userId := some "4915@s.whatsapp.net"
  meJson := some "\x7b\"id\":\"4915@s.whatsapp.net\"\x7d"

/-- A socket whose transport fails every query. -/
def offlineSock : Sock :=
  { quietSock with query := fun _ _ => .error (.thrown "timed out") }

/-- An inbound `ib` notification with a `dirty` child of type `communities`. -/
def dirtySignal : BinaryNode :=
  .mk "ib" [("from", "s.whatsapp.net")] (.nodes [.mk "dirty" [("type", "communities")] .absent])

/-- An inbound `ib` notification with a `dirty` child of type `groups`. -/
def otherDirtySignal : BinaryNode :=
  .mk "ib" [("from", "s.whatsapp.net")] (.nodes [.mk "dirty" [("type", "groups")] .absent])

/-- A community node with a subject, two members, a description and an
ephemeral timer. -/
def sampleCommunity : BinaryNode :=
  .mk "community"
    [("id", "120363041234567890"), ("subject", "Neighbours"), ("s_t", "1690000000"),
     ("creation", "1680000000"), ("creator", "4915@s.whatsapp.net")]
    (.nodes
      [.mk "description" [("id", "3EB0AA")] (.nodes [.mk "body" [] (.text "Street news")]),
       .mk "parent" [] .absent,
       .mk "participant" [("jid", "4915@s.whatsapp.net"), ("type", "superadmin")] .absent,
       .mk "ephemeral" [("expiration", "3600")] .absent,
       .mk "participant" [("jid", "4916@s.whatsapp.net")] .absent])

/-- A response carrying `sampleCommunity`. -/
def sampleResponse : BinaryNode :=
  .mk "iq" [("type", "result")] (.nodes [sampleCommunity])

/-- A socket whose metadata lookup fails. -/
def lookupFailsSock : Sock :=
  { quietSock with groupMetadata := fun _ _ => .error (.thrown "item-not-found") }

/-- The response to a `create` request: it names the new group. -/
def createdResponse : BinaryNode :=
  .mk "iq" [("type", "result")] (.nodes [.mk "group" [("id", "120363049999")] .absent])

/-- The key of a received invite message. -/
def sampleKey : WAMessageKey :=
  { remoteJid := some "4916@s.whatsapp.net", fromMe := some false,
    id := some "3EB0C0FFEE", participant := none }

/-- A socket whose identifier generator never returns the same identifier
twice in a row. -/
def freshIdSock : Sock :=
  { quietSock with
    generateMessageID := fun trace =>
      if trace.isEmpty then "3EB0AAAAAAAAAAAAAAAA" else "3EB0BBBBBBBBBBBBBBBB" }

/-- A response to the full fetch: three communities, the first and the third
under the same canonical id. -/
def participatingResponse : BinaryNode :=
  .mk "iq" [("type", "result")]
    (.nodes [.mk "communities" []
      (.nodes
        [.mk "community" [("id", "1"), ("subject", "Old name")] .absent,
         .mk "community" [("id", "2"), ("subject", "Other")] .absent,
         .mk "community" [("id", "1@g.us"), ("subject", "New name")] .absent])])

/-- A socket that answers every query with `participatingResponse`. -/
def participatingSock : Sock :=
  { quietSock with query := fun _ _ => .ok participatingResponse }

/-- A response to a `remove` request: one participant refused, one removed. -/
def removeResponse : BinaryNode :=
  .mk "iq" [("type", "result")]
    (.nodes [.mk "remove" []
      (.nodes
        [.mk "participant" [("jid", "4915@s.whatsapp.net"), ("error", "403")] .absent,
         .mk "participant" [("jid", "4916@s.whatsapp.net")] .absent])])

/-- A socket that answers every query with `removeResponse`. -/
def removeSock : Sock :=
  { quietSock with query := fun _ _ => .ok removeResponse }

/-- The metadata of a community that has no parent. -/
def sampleMetadata : GroupMetadata :=
  { id := "120363041234567890@g.us", subject := "Neighbours", subjectOwner := none,
    subjectTime := .int 1690000000, size := 2, creation := .int 1680000000,
    owner := some "4915@s.whatsapp.net", desc := some "Street news", descId := some "3EB0AA",
    linkedParent := none, restrict := false, announce := false, isCommunity := true,
    isCommunityAnnounce := false, joinApprovalMode := false, memberAddMode := false,
    participants := [], ephemeralDuration := none, addressingMode := none }

/-- A response listing two linked groups, the second with an empty id attribute. -/
def subGroupsResponse : BinaryNode :=
  .mk "iq" [("type", "result")]
    (.nodes [.mk "sub_groups" []
      (.nodes
        [.mk "group" [("id", "120363049999"), ("subject", "Gardening"), ("size", "12")] .absent,
         .mk "group" [("id", "")] .absent])])

/-- A socket that knows the metadata of a parentless community and answers
every query with `subGroupsResponse`. -/
def subGroupsSock : Sock :=
  { quietSock with
    query := fun _ _ => .ok subGroupsResponse
    groupMetadata := fun _ _ => .ok (some sampleMetadata) }

/-- A socket that answers every query with `sampleResponse`. -/
def metadataSock : Sock :=
  { quietSock with query := fun _ _ => .ok sampleResponse }

/-- A default connection config that does not sync the full history. -/
def sampleDefaults : SocketConfig Unit :=
  fun k =>
    if k = "syncFullHistory" then some (.bool false)
    else if k = "connectTimeoutMs" then some (.number 20000)
    else none

/-- A caller's config that asks for the full history. -/
def sampleConfig : SocketConfig Unit :=
  fun k => if k = "syncFullHistory" then some (.bool true) else none

/-- A socket that knows the metadata of a parentless community while its
transport fails every query. -/
def cutOffSock : Sock :=
  { offlineSock with groupMetadata := fun _ _ => .ok (some sampleMetadata) }

/-- A socket whose transport answers the first query with `sampleResponse` and
fails every later one. -/
def flakySock : Sock :=
  { quietSock with
    query := fun trace _ =>
      match trace with
      | [] => .ok sampleResponse
      | _ :: _ => .error (.thrown "timed out") }

/-! ## Execution lemmas -/


/-- The `>>=` of `Prog` is `Prog.bind`. -/
@[simp]
theorem bind_eq {α β : Type} (m : Prog α) (f : α → Prog β) :
    (m >>= f) = Prog.bind m f := rfl

/-- The `pure` of `Prog` is `Prog.pure`. -/
@[simp]
theorem pure_eq {α : Type} (a : α) : (pure a : Prog α) = Prog.pure a := rfl

/-- Running a sequence: the second part runs in the world the first part left,
and does not run at all when the first part failed. -/
theorem run_bind {α β : Type} (sock : Sock) (m : Prog α) (f : α → Prog β) (w : World) :
    run sock (Prog.bind m f) w =
      match run sock m w with
      | (.ok a, w1) => run sock (f a) w1
      | (.error e, w1) => (.error e, w1) := by
  induction m generalizing w with
  | pure a => simp [Prog.bind, run]
  | throw e => simp [Prog.bind, run]
  | query r k ih =>
    simp only [Prog.bind, run]
    cases sock.query w.trace r with
    | ok x => simp [ih]
    | error e => simp
  | groupMetadata j k ih => simp only [Prog.bind, run]; exact ih _ _
  | cleanDirtyBits ty k ih =>
    simp only [Prog.bind, run]
    cases sock.cleanDirtyBits w.trace ty with
    | ok x => simp [ih]
    | error e => simp
  | upsertMessage m ty k ih =>
    simp only [Prog.bind, run]
    cases sock.upsertMessage w.trace m ty with
    | ok x => simp [ih]
    | error e => simp
  | emit ev pl k ih => simp only [Prog.bind, run]; exact ih _
  | logInfo msg n k ih => simp only [Prog.bind, run]; exact ih _
  | consoleError msg e k ih => simp only [Prog.bind, run]; exact ih _
  | generateMessageID k ih => simp only [Prog.bind, run]; exact ih _ _
  | generateMessageIDV2 u k ih => simp only [Prog.bind, run]; exact ih _ _
  | unixTimestampSeconds k ih => simp only [Prog.bind, run]; exact ih _ _
  | readInvite k ih => simp only [Prog.bind, run]; exact ih _ _
  | writeInvite m k ih => simp only [Prog.bind, run]; exact ih _

/-- The character of a decimal digit is a digit character with that value. -/
theorem digitChar_value (k : Nat) (h : k < 10) :
    (Nat.digitChar k).toNat - 48 = k ∧ (Nat.digitChar k).isDigit = true := by
  interval_cases k <;> exact ⟨by decide, by decide⟩

/-- Reading back the digits printed in front of `ds` continues from `n`. -/
theorem foldl_toDigitsCore (fuel : Nat) : ∀ (n : Nat) (ds : List Char), n < fuel →
    (Nat.toDigitsCore 10 fuel n ds).foldl (fun acc c => 10 * acc + (c.toNat - 48)) 0 =
      ds.foldl (fun acc c => 10 * acc + (c.toNat - 48)) n := by
  induction fuel with
  | zero => intro n ds h; omega
  | succ fuel ih =>
    intro n ds h
    have hd := (digitChar_value (n % 10) (Nat.mod_lt _ (by decide))).1
    simp only [Nat.toDigitsCore]
    by_cases h0 : n / 10 = 0
    · simp only [h0, if_true, List.foldl_cons, hd]
      congr 1
      omega
    · simp only [h0, if_false]
      rw [ih (n / 10) _ (by omega)]
      simp only [List.foldl_cons, hd]
      congr 1
      omega

/-- Printing a number in base ten produces digit characters only. -/
theorem all_toDigitsCore (fuel : Nat) : ∀ (n : Nat) (ds : List Char),
    ds.all Char.isDigit = true → (Nat.toDigitsCore 10 fuel n ds).all Char.isDigit = true := by
  induction fuel with
  | zero => intro n ds h; simpa [Nat.toDigitsCore] using h
  | succ fuel ih =>
    intro n ds h
    have hd := (digitChar_value (n % 10) (Nat.mod_lt _ (by decide))).2
    simp only [Nat.toDigitsCore]
    by_cases h0 : n / 10 = 0
    · simp only [h0, if_true, List.all_cons, hd, h, Bool.and_self]
    · simp only [h0, if_false]
      exact ih _ _ (by simp only [List.all_cons, hd, h, Bool.and_self])

/-- The decimal string of `n` denotes `n`. -/
theorem decimalValue_repr (n : Nat) : decimalValue (Nat.repr n) = n := by
  simp only [decimalValue, Nat.repr, Nat.toDigits, List.asString]
  rw [foldl_toDigitsCore (n + 1) n [] (by omega)]
  rfl

/-- The decimal string of `n` is a run of decimal digits. -/
theorem isDecimal_repr (n : Nat) : isDecimal (Nat.repr n) = true := by
  simp only [isDecimal, Nat.repr, Nat.toDigits, List.asString]
  exact all_toDigitsCore (n + 1) n [] rfl

/-- A query that succeeds is recorded and its response handed on. -/
theorem run_query_ok {α : Type} (sock : Sock) (r x : BinaryNode) (k : BinaryNode → Prog α)
    (w : World) (h : sock.query w.trace r = .ok x) :
    run sock (.query r k) w = run sock (k x) (w.record (.query r)) := by
  simp [run, h]

/-- A query that fails is recorded and ends the run with its error. -/
theorem run_query_error {α : Type} (sock : Sock) (r : BinaryNode) (e : JSError)
    (k : BinaryNode → Prog α) (w : World) (h : sock.query w.trace r = .error e) :
    run sock (.query r k) w = (.error e, w.record (.query r)) := by
  simp [run, h]

/-- The children selected by tag all carry that tag. -/
theorem tag_of_mem_getBinaryNodeChildren (node : BinaryNode) (childTag : String)
    (c : BinaryNode) (h : c ∈ getBinaryNodeChildren node childTag) : c.tag = childTag := by
  simp [getBinaryNodeChildren] at h
  exact h.2

/-- No child is found exactly when no child carries the tag. -/
theorem getBinaryNodeChild_eq_none (node : BinaryNode) (childTag : String) :
    getBinaryNodeChild node childTag = none ↔ ∀ c ∈ node.children, c.tag ≠ childTag := by
  simp [getBinaryNodeChild, List.find?_eq_none]

/-- Below `2 ^ 53` a natural number is its own double. -/
theorem JSNumber.ofNat_of_lt (n : Nat) (h : n < 2 ^ 53) : JSNumber.ofNat n = .int n := by
  unfold JSNumber.ofNat
  exact if_pos h

/-- Every node handed to the loop of `communityFetchAllParticipating` carries
the tag `community`, so the extraction inside the loop cannot fail. -/
theorem collectCommunities_ok (wa : WABinary) (communities : List BinaryNode)
    (h : ∀ c ∈ communities, c.tag = "community") :
    ∃ data, collectCommunities wa communities = .ok data := by
  unfold collectCommunities
  generalize ([] : List (String × GroupMetadata)) = init
  induction communities generalizing init with
  | nil => exact ⟨init, rfl⟩
  | cons c cs ih =>
    have hc : c.tag = "community" := h c (List.mem_cons_self _ _)
    have hfind : getBinaryNodeChild (.mk "result" [] (.nodes [c])) "community" = some c := by
      simp [getBinaryNodeChild, BinaryNode.children, hc]
    obtain ⟨data, hdata⟩ := ih (fun c1 h1 => h c1 (List.mem_cons_of_mem _ h1))
      (objectSet init (communityMetadataOf wa c).id (communityMetadataOf wa c))
    refine ⟨data, ?_⟩
    simp only [List.foldlM, extractCommunityMetadata, hfind]
    exact hdata

/-- Building `data` from a response never fails. -/
theorem participatingData_ok (wa : WABinary) (result : BinaryNode) :
    ∃ data, participatingData wa result = .ok data := by
  unfold participatingData
  cases getBinaryNodeChild result "communities" with
  | none => exact ⟨[], rfl⟩
  | some communitiesChild =>
    exact collectCommunities_ok wa _
      (fun c hc => tag_of_mem_getBinaryNodeChildren communitiesChild "community" c hc)

/-- A full fetch whose query succeeds: one query, then one `groups.update`
event carrying the values of the returned mapping. -/
theorem run_fetchAll_ok (sock : Sock) (wa : WABinary) (w : World) (result : BinaryNode)
    (data : List (String × GroupMetadata))
    (hq : sock.query w.trace fetchAllRequest = .ok result)
    (hd : participatingData wa result = .ok data) :
    run sock (communityFetchAllParticipating wa) w =
      (.ok data,
        (w.record (.query fetchAllRequest)).record
          (.emit "groups.update" (.groups (data.map (fun kv => kv.2))))) := by
  simp [communityFetchAllParticipating, Call.query, Call.emit, Prog.bind, run, hq, hd,
    Prog.ofExcept]

/-- A full fetch whose query fails: the query is the only effect. -/
theorem run_fetchAll_error (sock : Sock) (wa : WABinary) (w : World) (e : JSError)
    (hq : sock.query w.trace fetchAllRequest = .error e) :
    run sock (communityFetchAllParticipating wa) w =
      (.error e, w.record (.query fetchAllRequest)) := by
  simp [communityFetchAllParticipating, Call.query, Prog.bind, run, hq]

/-- The run of `parseGroupResult` on a node with a `group` child: two log
lines, the lookup, and `null` in place of a failed or empty lookup. -/
theorem run_parseGroupResult_some (sock : Sock) (node g : BinaryNode) (w : World)
    (hg : getBinaryNodeChild node "group" = some g) :
    (run sock (parseGroupResult node) w).1 =
      match sock.groupMetadata
          (w.trace ++ [.logInfo "parseGroupResult" node, .logInfo "groupNode" g])
          (groupJidOf (getAttr g.attrs "id")) with
      | .ok (some md) => .ok (some md)
      | _ => .ok none := by
  simp only [parseGroupResult, Call.logInfo, Call.consoleError, bind_eq, pure_eq, Prog.bind,
    run, hg, World.record, List.append_assoc, List.singleton_append]
  cases sock.groupMetadata _ _ with
  | error e => simp [Prog.bind, run]
  | ok md => cases md <;> simp [run]

/-- The run of `communityAcceptInviteV4` when its query succeeds. -/
theorem run_acceptInviteV4_ok (sock : Sock) (keyArg : KeyArg) (w : World) (results : BinaryNode)
    (hq : sock.query w.trace (acceptRequest keyArg.normalize w.inviteMessage) = .ok results) :
    (run sock (communityAcceptInviteV4 sock keyArg) w).2 =
      { trace :=
          w.trace ++ [.query (acceptRequest keyArg.normalize w.inviteMessage)] ++
            acceptUpdateEvents keyArg.normalize w.inviteMessage ++
            [.upsertMessage
              (acceptStub sock keyArg.normalize w.inviteMessage
                (w.trace ++ [.query (acceptRequest keyArg.normalize w.inviteMessage)] ++
                  acceptUpdateEvents keyArg.normalize w.inviteMessage))
              "notify"]
        inviteMessage :=
          if truthy keyArg.normalize.id then consumedInvite w.inviteMessage
          else w.inviteMessage } := by
  have hq1 : sock.query w.trace (.mk "iq"
      [("type", "set"), ("xmlns", "w:g2"), ("to", w.inviteMessage.groupJid)]
      (.nodes [.mk "accept"
        ([("code", w.inviteMessage.inviteCode),
          ("expiration", numberToString w.inviteMessage.inviteExpiration)] ++
          attrOpt "admin" keyArg.normalize.remoteJid) .absent])) = .ok results := hq
  by_cases hid : truthy keyArg.normalize.id = true
  · simp only [communityAcceptInviteV4, communityQuery, Call.query, Call.readInvite,
      Call.writeInvite, Call.emit, Call.generateMessageIDV2, Call.unixTimestampSeconds,
      Call.upsertMessage, bind_eq, pure_eq, Prog.bind, run, hq1, hid, if_true, World.record,
      acceptUpdateEvents, acceptStub, consumedInvite, acceptRequest]
    cases sock.upsertMessage _ _ _ <;> simp [run]
  · simp only [communityAcceptInviteV4, communityQuery, Call.query, Call.readInvite,
      Call.writeInvite, Call.emit, Call.generateMessageIDV2, Call.unixTimestampSeconds,
      Call.upsertMessage, bind_eq, pure_eq, Prog.bind, run, hq1, hid, if_false, World.record,
      acceptUpdateEvents, acceptStub, consumedInvite, acceptRequest]
    cases sock.upsertMessage _ _ _ <;> simp [run]

/-- The run of `communityAcceptInviteV4` when its query fails. -/
theorem run_acceptInviteV4_error (sock : Sock) (keyArg : KeyArg) (w : World) (e : JSError)
    (hq : sock.query w.trace (acceptRequest keyArg.normalize w.inviteMessage) = .error e) :
    run sock (communityAcceptInviteV4 sock keyArg) w =
      (.error e, w.record (.query (acceptRequest keyArg.normalize w.inviteMessage))) := by
  have hq1 : sock.query w.trace (.mk "iq"
      [("type", "set"), ("xmlns", "w:g2"), ("to", w.inviteMessage.groupJid)]
      (.nodes [.mk "accept"
        ([("code", w.inviteMessage.inviteCode),
          ("expiration", numberToString w.inviteMessage.inviteExpiration)] ++
          attrOpt "admin" keyArg.normalize.remoteJid) .absent])) = .error e := hq
  simp only [communityAcceptInviteV4, communityQuery, Call.query, Call.readInvite, bind_eq,
    Prog.bind, run, hq1, acceptRequest]

/-- A run only ever extends the trace. -/
theorem run_trace_extends {α : Type} (sock : Sock) (m : Prog α) (w : World) :
    ∃ tail, (run sock m w).2.trace = w.trace ++ tail := by
  induction m generalizing w with
  | pure a => exact ⟨[], by simp [run]⟩
  | throw e => exact ⟨[], by simp [run]⟩
  | query r k ih =>
    simp only [run]
    cases sock.query w.trace r with
    | ok x =>
      obtain ⟨tail, ht⟩ := ih x (w.record (.query r))
      exact ⟨.query r :: tail, by rw [ht]; simp [World.record]⟩
    | error e => exact ⟨[.query r], by simp [World.record]⟩
  | groupMetadata j k ih =>
    obtain ⟨tail, ht⟩ := ih (sock.groupMetadata w.trace j) (w.record (.groupMetadata j))
    exact ⟨.groupMetadata j :: tail, by simp only [run]; rw [ht]; simp [World.record]⟩
  | cleanDirtyBits ty k ih =>
    simp only [run]
    cases sock.cleanDirtyBits w.trace ty with
    | ok x =>
      obtain ⟨tail, ht⟩ := ih (w.record (.cleanDirtyBits ty))
      exact ⟨.cleanDirtyBits ty :: tail, by rw [ht]; simp [World.record]⟩
    | error e => exact ⟨[.cleanDirtyBits ty], by simp [World.record]⟩
  | upsertMessage m ty k ih =>
    simp only [run]
    cases sock.upsertMessage w.trace m ty with
    | ok x =>
      obtain ⟨tail, ht⟩ := ih (w.record (.upsertMessage m ty))
      exact ⟨.upsertMessage m ty :: tail, by rw [ht]; simp [World.record]⟩
    | error e => exact ⟨[.upsertMessage m ty], by simp [World.record]⟩
  | emit ev pl k ih =>
    obtain ⟨tail, ht⟩ := ih (w.record (.emit ev pl))
    exact ⟨.emit ev pl :: tail, by simp only [run]; rw [ht]; simp [World.record]⟩
  | logInfo msg n k ih =>
    obtain ⟨tail, ht⟩ := ih (w.record (.logInfo msg n))
    exact ⟨.logInfo msg n :: tail, by simp only [run]; rw [ht]; simp [World.record]⟩
  | consoleError msg e k ih =>
    obtain ⟨tail, ht⟩ := ih (w.record (.consoleError msg e))
    exact ⟨.consoleError msg e :: tail, by simp only [run]; rw [ht]; simp [World.record]⟩
  | generateMessageID k ih => simpa [run] using ih _ w
  | generateMessageIDV2 u k ih => simpa [run] using ih _ w
  | unixTimestampSeconds k ih => simpa [run] using ih _ w
  | readInvite k ih => simpa [run] using ih _ w
  | writeInvite m k ih => simpa [run] using ih { w with inviteMessage := m }

/-- Where a query sits in a trace that continues after one recorded effect:
either the recorded effect is that query, or the query comes later. -/
theorem split_after_effect {t pre rest tail : List Effect} {eff q : Effect}
    (h : t ++ [eff] ++ tail = t ++ pre ++ [q] ++ rest) :
    (pre = [] ∧ eff = q ∧ tail = rest) ∨
    (∃ pre1, pre = eff :: pre1 ∧ tail = pre1 ++ [q] ++ rest) := by
  simp only [List.append_assoc, List.append_cancel_left_eq] at h
  cases pre with
  | nil =>
    simp only [List.singleton_append, List.nil_append, List.cons.injEq] at h
    exact Or.inl ⟨rfl, h.1, h.2⟩
  | cons a pre1 =>
    simp only [List.singleton_append, List.cons_append, List.cons.injEq] at h
    exact Or.inr ⟨pre1, by rw [h.1], by simpa using h.2⟩

/-- The continuation after a recorded effect that is not the failing query
inherits the position of that query. -/
theorem failing_query_after_effect {α : Type} (sock : Sock) (k : Prog α) (w : World)
    (eff : Effect) (pre rest : List Effect) (req : BinaryNode) (e : JSError)
    (ih : ∀ (w1 : World) (pre1 : List Effect),
      (run sock k w1).2.trace = w1.trace ++ pre1 ++ [.query req] ++ rest →
      sock.query (w1.trace ++ pre1) req = .error e →
      (run sock k w1).1 = .error e ∧ rest = [])
    (hne : pre = [] → eff ≠ .query req)
    (ht : (run sock k (w.record eff)).2.trace = w.trace ++ pre ++ [.query req] ++ rest)
    (he : sock.query (w.trace ++ pre) req = .error e) :
    (run sock k (w.record eff)).1 = .error e ∧ rest = [] := by
  obtain ⟨tail, htail⟩ := run_trace_extends sock k (w.record eff)
  have hsplit : w.trace ++ [eff] ++ tail = w.trace ++ pre ++ [.query req] ++ rest := by
    rw [← ht, htail]
    simp [World.record]
  rcases split_after_effect hsplit with ⟨hpre, heq, _⟩ | ⟨pre1, hpre, htl⟩
  · exact absurd heq (hne hpre)
  · apply ih (w.record eff) pre1
    · rw [htail, htl]
      simp [World.record]
    · rw [hpre] at he
      simpa [World.record] using he

/-- A failing effect that ends the run cannot be followed by a query. -/
theorem no_query_after_last {t pre rest : List Effect} {eff : Effect} {req : BinaryNode}
    (h : t ++ [eff] = t ++ pre ++ [.query req] ++ rest) :
    pre = [] ∧ eff = .query req ∧ rest = [] := by
  have h1 : t ++ [eff] ++ [] = t ++ pre ++ [.query req] ++ rest := by simpa using h
  rcases split_after_effect h1 with ⟨hpre, heq, hrest⟩ | ⟨pre1, _, htl⟩
  · exact ⟨hpre, heq, hrest.symm⟩
  · simp at htl

/-- In any computation, a query that fails ends the run: the run fails with
the error of that query, and no effect follows the query. -/
theorem run_failing_query {α : Type} (sock : Sock) (m : Prog α) (w : World)
    (pre rest : List Effect) (req : BinaryNode) (e : JSError)
    (ht : (run sock m w).2.trace = w.trace ++ pre ++ [.query req] ++ rest)
    (he : sock.query (w.trace ++ pre) req = .error e) :
    (run sock m w).1 = .error e ∧ rest = [] := by
  induction m generalizing w pre with
  | pure a =>
    have hlen := congrArg List.length ht
    simp [run] at hlen
  | throw e1 =>
    have hlen := congrArg List.length ht
    simp [run] at hlen
  | query r k ih =>
    simp only [run] at ht ⊢
    cases hq : sock.query w.trace r with
    | ok x =>
      simp only [hq] at ht ⊢
      refine failing_query_after_effect sock (k x) w (.query r) pre rest req e
        (fun w1 pre1 => ih x w1 pre1) ?_ ht he
      intro hpre heq
      rw [hpre, List.append_nil] at he
      have hr : r = req := by simpa using heq
      rw [hr, he] at hq
      cases hq
    | error e1 =>
      simp only [hq, World.record] at ht ⊢
      obtain ⟨hpre, heq, hrest⟩ := no_query_after_last ht
      have hr : r = req := by simpa using heq
      rw [hpre, List.append_nil, ← hr, hq] at he
      have hee : e1 = e := by simpa using he
      exact ⟨by rw [hee], hrest⟩
  | groupMetadata j k ih =>
    simp only [run] at ht ⊢
    exact failing_query_after_effect sock _ w (.groupMetadata j) pre rest req e
      (fun w1 pre1 => ih _ w1 pre1) (fun _ h => by cases h) ht he
  | cleanDirtyBits ty k ih =>
    simp only [run] at ht ⊢
    cases hc : sock.cleanDirtyBits w.trace ty with
    | ok x =>
      simp only [hc] at ht ⊢
      exact failing_query_after_effect sock k w (.cleanDirtyBits ty) pre rest req e
        (fun w1 pre1 => ih w1 pre1) (fun _ h => by cases h) ht he
    | error e1 =>
      simp only [hc, World.record] at ht
      obtain ⟨_, heq, _⟩ := no_query_after_last ht
      cases heq
  | upsertMessage msg ty k ih =>
    simp only [run] at ht ⊢
    cases hc : sock.upsertMessage w.trace msg ty with
    | ok x =>
      simp only [hc] at ht ⊢
      exact failing_query_after_effect sock k w (.upsertMessage msg ty) pre rest req e
        (fun w1 pre1 => ih w1 pre1) (fun _ h => by cases h) ht he
    | error e1 =>
      simp only [hc, World.record] at ht
      obtain ⟨_, heq, _⟩ := no_query_after_last ht
      cases heq
  | emit ev pl k ih =>
    simp only [run] at ht ⊢
    exact failing_query_after_effect sock k w (.emit ev pl) pre rest req e
      (fun w1 pre1 => ih w1 pre1) (fun _ h => by cases h) ht he
  | logInfo msg n k ih =>
    simp only [run] at ht ⊢
    exact failing_query_after_effect sock k w (.logInfo msg n) pre rest req e
      (fun w1 pre1 => ih w1 pre1) (fun _ h => by cases h) ht he
  | consoleError msg e1 k ih =>
    simp only [run] at ht ⊢
    exact failing_query_after_effect sock k w (.consoleError msg e1) pre rest req e
      (fun w1 pre1 => ih w1 pre1) (fun _ h => by cases h) ht he
  | generateMessageID k ih => exact ih _ w pre (by simpa [run] using ht) he
  | generateMessageIDV2 u k ih => exact ih _ w pre (by simpa [run] using ht) he
  | unixTimestampSeconds k ih => exact ih _ w pre (by simpa [run] using ht) he
  | readInvite k ih => exact ih _ w pre (by simpa [run] using ht) he
  | writeInvite m k ih =>
    exact ih { w with inviteMessage := m } pre (by simpa [run] using ht) he

/-- What a run dispatches, read off a description of the effects it adds. -/
theorem dispatched_of_trace {α : Type} (sock : Sock) (m : Prog α) (w : World)
    (added : List Effect) (h : (run sock m w).2.trace = w.trace ++ added) :
    dispatched sock m w = added.filterMap Effect.request? := by
  simp [dispatched, h]

/-- A sequence dispatches what its first part dispatches and then, when that
part succeeded, what its second part dispatches. -/
theorem dispatched_bind {α β : Type} (sock : Sock) (m : Prog α) (f : α → Prog β) (w : World) :
    dispatched sock (Prog.bind m f) w =
      dispatched sock m w ++
        match run sock m w with
        | (.ok a, w1) => dispatched sock (f a) w1
        | (.error _, _) => [] := by
  obtain ⟨t1, ht1⟩ := run_trace_extends sock m w
  rw [dispatched_of_trace sock m w t1 ht1]
  cases hm : run sock m w with
  | mk res w1 =>
    rw [hm] at ht1
    cases res with
    | error e =>
      have h : (run sock (Prog.bind m f) w).2.trace = w.trace ++ t1 := by
        rw [run_bind, hm]
        exact ht1
      rw [dispatched_of_trace sock _ w t1 h]
      simp
    | ok a =>
      obtain ⟨t2, ht2⟩ := run_trace_extends sock (f a) w1
      have hw1 : w1.trace = w.trace ++ t1 := ht1
      have h : (run sock (Prog.bind m f) w).2.trace = w.trace ++ (t1 ++ t2) := by
        rw [run_bind, hm]
        simp only [ht2, hw1, List.append_assoc]
      rw [dispatched_of_trace sock _ w (t1 ++ t2) h]
      simp only [dispatched_of_trace sock (f a) w1 t2 ht2, List.filterMap_append]

/-- A query dispatches its request, whether it succeeds or not. -/
theorem dispatched_query (sock : Sock) (r : BinaryNode) (w : World) :
    dispatched sock (Call.query r) w = [r] := by
  apply (dispatched_of_trace sock _ w [.query r] _).trans rfl
  simp only [Call.query, run]
  cases sock.query w.trace r <;> simp [run, World.record]

/-- A query followed by steps that dispatch nothing dispatches its request only. -/
theorem dispatched_query_bind {β : Type} (sock : Sock) (r : BinaryNode)
    (f : BinaryNode → Prog β) (w : World)
    (hf : ∀ x w1, dispatched sock (f x) w1 = []) :
    dispatched sock (Prog.bind (Call.query r) f) w = [r] := by
  rw [dispatched_bind, dispatched_query]
  cases hm : run sock (Call.query r) w with
  | mk res w1 => cases res <;> simp [hf]

/-- Dropping the result of a computation does not change what it dispatches. -/
theorem dispatched_discard {α : Type} (sock : Sock) (m : Prog α) (w : World) :
    dispatched sock m.discard w = dispatched sock m w := by
  unfold Prog.discard
  rw [dispatched_bind]
  cases hm : run sock m w with
  | mk res w1 => cases res <;> simp [dispatched, run]

/-- The lookup that follows a `create` request dispatches nothing through `query`. -/
theorem dispatched_parseGroupResult (sock : Sock) (node : BinaryNode) (w : World) :
    dispatched sock (parseGroupResult node) w = [] := by
  simp only [parseGroupResult, Call.logInfo, Call.consoleError, bind_eq, pure_eq, Prog.bind,
    dispatched, run]
  cases getBinaryNodeChild node "group" with
  | none => simp [run, World.record, Prog.bind, Effect.request?]
  | some g =>
    simp only [Prog.bind, run]
    cases sock.groupMetadata _ _ <;>
      simp [run, World.record, Prog.bind, Effect.request?]

/-- A synchronous step dispatches nothing. -/
theorem dispatched_ofExcept {α : Type} (sock : Sock) (x : Except JSError α) (w : World) :
    dispatched sock (Prog.ofExcept x) w = [] := by
  cases x <;> simp [dispatched, Prog.ofExcept, run]

/-- A computation that has finished dispatches nothing. -/
theorem dispatched_pure {α : Type} (sock : Sock) (a : α) (w : World) :
    dispatched sock (Prog.pure a) w = [] := by
  simp [dispatched, run]

/-- Generating an identifier dispatches nothing: the run continues with the
identifier the generator gives at that point. -/
theorem dispatched_generateMessageID_bind {β : Type} (sock : Sock) (f : String → Prog β)
    (w : World) :
    dispatched sock (Prog.bind Call.generateMessageID f) w =
      dispatched sock (f (sock.generateMessageID w.trace)) w := by
  simp [dispatched, Call.generateMessageID, Prog.bind, run]

/-- Generating a long-form identifier dispatches nothing. -/
theorem dispatched_generateMessageIDV2_bind {β : Type} (sock : Sock) (u : Option String)
    (f : String → Prog β) (w : World) :
    dispatched sock (Prog.bind (Call.generateMessageIDV2 u) f) w =
      dispatched sock (f (sock.generateMessageIDV2 w.trace u)) w := by
  simp [dispatched, Call.generateMessageIDV2, Prog.bind, run]

/-- The one request `communityAcceptInviteV4` dispatches. -/
theorem dispatched_acceptInviteV4 (sock : Sock) (keyArg : KeyArg) (w : World) :
    dispatched sock (communityAcceptInviteV4 sock keyArg) w =
      [acceptRequest keyArg.normalize w.inviteMessage] := by
  cases hq : sock.query w.trace (acceptRequest keyArg.normalize w.inviteMessage) with
  | error e =>
    apply (dispatched_of_trace sock _ w
      [.query (acceptRequest keyArg.normalize w.inviteMessage)] _).trans rfl
    rw [run_acceptInviteV4_error sock keyArg w e hq]
    rfl
  | ok results =>
    have h := run_acceptInviteV4_ok sock keyArg w results hq
    rw [dispatched_of_trace sock _ w
      ([.query (acceptRequest keyArg.normalize w.inviteMessage)] ++
        acceptUpdateEvents keyArg.normalize w.inviteMessage ++
        [.upsertMessage
          (acceptStub sock keyArg.normalize w.inviteMessage
            (w.trace ++ [.query (acceptRequest keyArg.normalize w.inviteMessage)] ++
              acceptUpdateEvents keyArg.normalize w.inviteMessage))
          "notify"]) (by rw [h]; simp)]
    by_cases hid : truthy keyArg.normalize.id = true <;>
      simp [acceptUpdateEvents, hid, Effect.request?]

/-- The canonical identifier always contains the domain separator. -/
theorem communityId_includesAt (idAttr : Option String) :
    includesAt (communityId idAttr) = true := by
  cases idAttr with
  | none => decide
  | some s =>
    by_cases h : includesAt s = true
    · simp [communityId, h]
    · have h1 : '@' ∉ s.data := by simpa [includesAt] using h
      simp [communityId, h1, jidEncode, includesAt, String.data_append]

/-- Canonicalising a canonical identifier changes nothing. -/
theorem communityId_idem (idAttr : Option String) :
    communityId (some (communityId idAttr)) = communityId idAttr := by
  have h := communityId_includesAt idAttr
  generalize communityId idAttr = c at h
  simp [communityId, h]

/-- Reading a key after every entry under `key` has been replaced by `(key, v)`. -/
theorem lookup_replace {α : Type} (data : List (String × α)) (key : String) (v : α)
    (k : String) :
    (data.map (fun kv => if kv.1 == key then (key, v) else kv)).lookup k =
      if k = key then (data.lookup key).map (fun _ => v) else data.lookup k := by
  induction data with
  | nil => simp
  | cons kv rest ih =>
    obtain ⟨k1, v1⟩ := kv
    rw [List.map_cons]
    by_cases hk1 : k1 = key
    · have hhead : (if ((k1, v1).1 == key) = true then (key, v) else (k1, v1)) = (key, v) := by
        simp [hk1]
      rw [hhead, List.lookup_cons, ih]
      subst hk1
      by_cases hk : k = k1
      · subst hk
        simp [List.lookup_cons]
      · have hbeq : (k == k1) = false := by simpa using hk
        simp [hbeq, hk, List.lookup_cons]
    · have hhead : (if ((k1, v1).1 == key) = true then (key, v) else (k1, v1)) = (k1, v1) := by
        simp [hk1]
      have hne2 : (key == k1) = false := by simpa using fun h : key = k1 => hk1 h.symm
      rw [hhead, List.lookup_cons, ih, List.lookup_cons, List.lookup_cons, hne2]
      by_cases hk : k = k1
      · subst hk
        simp [hk1]
      · have hbeq : (k == k1) = false := by simpa using hk
        simp [hbeq]

/-- A key can be read exactly when some entry carries it. -/
theorem lookup_isSome_iff_any {α : Type} (data : List (String × α)) (key : String) :
    (data.lookup key).isSome = data.any (fun kv => kv.1 == key) := by
  induction data with
  | nil => rfl
  | cons kv rest ih =>
    obtain ⟨k1, v1⟩ := kv
    by_cases hk : key = k1
    · subst hk
      simp [List.lookup]
    · have hbeq : (key == k1) = false := by simpa using hk
      have hbeq2 : (k1 == key) = false := by simpa using fun h : k1 = key => hk h.symm
      simp [List.lookup, hbeq, hbeq2, ih]

/-- Reading a key after an assignment: the assigned key holds the new value,
every other key holds what it held. -/
theorem lookup_objectSet {α : Type} (data : List (String × α)) (key : String) (v : α)
    (k : String) :
    (objectSet data key v).lookup k = if k = key then some v else data.lookup k := by
  unfold objectSet
  have hany := lookup_isSome_iff_any data key
  by_cases h : data.any (fun kv => kv.1 == key) = true
  · rw [if_pos h, lookup_replace]
    rw [h] at hany
    by_cases hk : k = key
    · obtain ⟨x, hx⟩ := Option.isSome_iff_exists.1 hany
      simp [hk, hx]
    · simp [hk]
  · rw [if_neg h]
    have hf : data.any (fun kv => kv.1 == key) = false := Bool.eq_false_iff.2 h
    rw [hf] at hany
    have hnone : data.lookup key = none := by simpa using hany
    by_cases hk : k = key
    · subst hk
      simp [List.lookup_append, hnone, List.lookup]
    · have hbeq : (k == key) = false := by simpa using hk
      simp [List.lookup_append, List.lookup, hbeq, hk]

/-- The keys after an assignment: unchanged for an existing key, one more at
the end for a new key. -/
theorem keys_objectSet {α : Type} (data : List (String × α)) (key : String) (v : α) :
    (objectSet data key v).map (fun kv => kv.1) =
      if data.any (fun kv => kv.1 == key) then data.map (fun kv => kv.1)
      else data.map (fun kv => kv.1) ++ [key] := by
  unfold objectSet
  by_cases h : data.any (fun kv => kv.1 == key) = true
  · rw [if_pos h, if_pos h, List.map_map]
    apply List.map_congr_left
    intro kv _
    by_cases hkv : kv.1 = key
    · simp [hkv]
    · simp [hkv]
  · rw [if_neg h, if_neg h]
    simp

/-- An assignment keeps the keys distinct. -/
theorem nodup_keys_objectSet {α : Type} (data : List (String × α)) (key : String) (v : α)
    (h : (data.map (fun kv => kv.1)).Nodup) :
    ((objectSet data key v).map (fun kv => kv.1)).Nodup := by
  rw [keys_objectSet]
  by_cases hany : data.any (fun kv => kv.1 == key) = true
  · rw [if_pos hany]
    exact h
  · rw [if_neg hany]
    apply List.Nodup.append h (List.nodup_singleton _)
    simp only [List.any_eq_true, beq_iff_eq, not_exists, not_and] at hany
    simp only [List.disjoint_singleton, List.mem_map, not_exists, not_and]
    intro kv hkv
    exact hany kv hkv

/-- An entry after an assignment is an old entry or the assigned one. -/
theorem mem_objectSet {α : Type} (data : List (String × α)) (key : String) (v : α)
    (kv : String × α) (h : kv ∈ objectSet data key v) : kv ∈ data ∨ kv = (key, v) := by
  unfold objectSet at h
  by_cases hany : data.any (fun kv => kv.1 == key) = true
  · rw [if_pos hany] at h
    obtain ⟨kv0, hmem, heq⟩ := List.mem_map.1 h
    by_cases hk : kv0.1 = key
    · right
      simpa [hk] using heq.symm
    · left
      have : kv0 = kv := by simpa [hk] using heq
      exact this ▸ hmem
  · rw [if_neg hany] at h
    simpa using h

/-- Assignments under other keys leave a key as it was. -/
theorem lookup_foldl_of_ne {α β : Type} (key : β → String) (val : β → α) (cs : List β)
    (k : String) (h : ∀ c ∈ cs, key c ≠ k) (init : List (String × α)) :
    (cs.foldl (fun d c => objectSet d (key c) (val c)) init).lookup k = init.lookup k := by
  induction cs generalizing init with
  | nil => rfl
  | cons c rest ih =>
    rw [List.foldl_cons, ih (fun c1 h1 => h c1 (List.mem_cons_of_mem _ h1)), lookup_objectSet]
    have hc : k ≠ key c := fun hk => h c (List.mem_cons_self _ _) hk.symm
    simp [hc]

/-- After a run of assignments a key holds the value of the last assignment
under it. -/
theorem lookup_foldl_last {α β : Type} (key : β → String) (val : β → α)
    (pre post : List β) (cl : β) (h : ∀ c ∈ post, key c ≠ key cl) (init : List (String × α)) :
    ((pre ++ cl :: post).foldl (fun d c => objectSet d (key c) (val c)) init).lookup (key cl) =
      some (val cl) := by
  rw [List.foldl_append, List.foldl_cons, lookup_foldl_of_ne key val post (key cl) h,
    lookup_objectSet]
  simp

/-- After a run of assignments every assigned key holds the value of one of
the assignments under that key. -/
theorem lookup_foldl_mem {α β : Type} (key : β → String) (val : β → α) (cs : List β) :
    ∀ (init : List (String × α)) (c : β), c ∈ cs →
      ∃ cl ∈ cs, key cl = key c ∧
        (cs.foldl (fun d c => objectSet d (key c) (val c)) init).lookup (key c) =
          some (val cl) := by
  induction cs with
  | nil => intro init c hc; simp at hc
  | cons a rest ih =>
    intro init c hc
    by_cases hrest : ∃ c1 ∈ rest, key c1 = key c
    · obtain ⟨c1, hc1, hk1⟩ := hrest
      obtain ⟨cl, hcl, hkcl, hlook⟩ := ih (objectSet init (key a) (val a)) c1 hc1
      exact ⟨cl, List.mem_cons_of_mem _ hcl, hkcl.trans hk1, by
        rw [List.foldl_cons, ← hk1]; exact hlook⟩
    · have hne : ∀ c1 ∈ rest, key c1 ≠ key c := fun c1 h1 hk => hrest ⟨c1, h1, hk⟩
      have hca : c = a := by
        rcases List.mem_cons.1 hc with h | h
        · exact h
        · exact absurd rfl (hne c h)
      subst hca
      refine ⟨c, List.mem_cons_self _ _, rfl, ?_⟩
      rw [List.foldl_cons, lookup_foldl_of_ne key val rest (key c) hne, lookup_objectSet]
      simp

/-- A run of assignments keeps the keys distinct. -/
theorem nodup_keys_foldl {α β : Type} (key : β → String) (val : β → α) (cs : List β)
    (init : List (String × α)) (h : (init.map (fun kv => kv.1)).Nodup) :
    ((cs.foldl (fun d c => objectSet d (key c) (val c)) init).map (fun kv => kv.1)).Nodup := by
  induction cs generalizing init with
  | nil => exact h
  | cons a rest ih => exact ih _ (nodup_keys_objectSet init (key a) (val a) h)

/-- An entry after a run of assignments is an old entry or one of the assigned
ones. -/
theorem mem_foldl_objectSet {α β : Type} (key : β → String) (val : β → α) (cs : List β)
    (init : List (String × α)) (kv : String × α)
    (h : kv ∈ cs.foldl (fun d c => objectSet d (key c) (val c)) init) :
    kv ∈ init ∨ ∃ c ∈ cs, kv = (key c, val c) := by
  induction cs generalizing init with
  | nil => exact Or.inl h
  | cons a rest ih =>
    rcases ih _ h with h1 | ⟨c, hc, hkv⟩
    · rcases mem_objectSet init (key a) (val a) kv h1 with h2 | h2
      · exact Or.inl h2
      · exact Or.inr ⟨a, List.mem_cons_self _ _, h2⟩
    · exact Or.inr ⟨c, List.mem_cons_of_mem _ hc, hkv⟩

/-- The loop of `communityFetchAllParticipating` on nodes tagged `community`:
one assignment `data[id] = metadata` per node, in order. -/
theorem collectCommunities_eq (wa : WABinary) (communities : List BinaryNode)
    (h : ∀ c ∈ communities, c.tag = "community") :
    collectCommunities wa communities =
      .ok (communities.foldl
        (fun d c => objectSet d (communityId (getAttr c.attrs "id")) (communityMetadataOf wa c))
        []) := by
  unfold collectCommunities
  generalize ([] : List (String × GroupMetadata)) = init
  induction communities generalizing init with
  | nil => rfl
  | cons c cs ih =>
    have hc : c.tag = "community" := h c (List.mem_cons_self _ _)
    have hfind : getBinaryNodeChild (.mk "result" [] (.nodes [c])) "community" = some c := by
      simp [getBinaryNodeChild, BinaryNode.children, hc]
    simp only [List.foldlM, extractCommunityMetadata, hfind, List.foldl_cons]
    exact ih (fun c1 h1 => h c1 (List.mem_cons_of_mem _ h1)) _

/-- Below `2 ^ 53` a number prints as its decimal digits. -/
theorem numberToString_of_lt (n : Nat) (h : n < 2 ^ 53) : numberToString n = Nat.repr n := by
  unfold numberToString
  rw [JSNumber.ofNat_of_lt n h]
  simp only [printDouble, if_pos h]

/-- Generating an identifier is not an effect on the trace. -/
theorem run_generateMessageID {α : Type} (sock : Sock) (k : String → Prog α) (w : World) :
    run sock (.generateMessageID k) w = run sock (k (sock.generateMessageID w.trace)) w := rfl

/-- Generating a long-form identifier is not an effect on the trace. -/
theorem run_generateMessageIDV2 {α : Type} (sock : Sock) (u : Option String)
    (k : String → Prog α) (w : World) :
    run sock (.generateMessageIDV2 u k) w =
      run sock (k (sock.generateMessageIDV2 w.trace u)) w := rfl

/-- Reading the invite message is not an effect on the trace. -/
theorem run_readInvite {α : Type} (sock : Sock) (k : GroupInviteMessage → Prog α) (w : World) :
    run sock (.readInvite k) w = run sock (k w.inviteMessage) w := rfl

/-- The metadata lookup is recorded and its outcome handed on. -/
theorem run_groupMetadata {α : Type} (sock : Sock) (jid : String)
    (k : Except JSError (Option GroupMetadata) → Prog α) (w : World) :
    run sock (.groupMetadata jid k) w =
      run sock (k (sock.groupMetadata w.trace jid)) (w.record (.groupMetadata jid)) := rfl

/-- A computation that starts with a query: the query is the first effect it
adds, and when that query fails the run ends there with its error, the invite
message untouched. -/
theorem run_starts_with_query {α : Type} (sock : Sock) (r : BinaryNode)
    (k : BinaryNode → Prog α) (w : World) :
    ∃ request rest,
      (run sock (.query r k) w).2.trace = w.trace ++ [.query request] ++ rest ∧
      ∀ e, sock.query w.trace request = .error e →
        run sock (.query r k) w =
          (.error e,
            { trace := w.trace ++ [.query request], inviteMessage := w.inviteMessage }) := by
  refine ⟨r, ?_⟩
  cases hq : sock.query w.trace r with
  | ok x =>
    obtain ⟨tail, htail⟩ := run_trace_extends sock (k x) (w.record (.query r))
    refine ⟨tail, ?_, fun e he => by cases he⟩
    rw [run_query_ok sock r x k w hq, htail]
    simp [World.record]
  | error e1 =>
    refine ⟨[], ?_, fun e he => ?_⟩
    · rw [run_query_error sock r e1 k w hq]
      simp [World.record]
    · have hee : e1 = e := by
        injection he
      rw [run_query_error sock r e1 k w hq, hee]
      rfl

/-- The same, for a computation that starts with a query right after one
recorded effect. -/
theorem run_query_after_effect {α : Type} (sock : Sock) (r : BinaryNode)
    (k : BinaryNode → Prog α) (w : World) (eff : Effect) :
    ∃ request rest,
      (run sock (.query r k) (w.record eff)).2.trace =
        w.trace ++ [eff, .query request] ++ rest ∧
      ∀ e, sock.query (w.trace ++ [eff]) request = .error e →
        run sock (.query r k) (w.record eff) =
          (.error e,
            { trace := w.trace ++ [eff, .query request], inviteMessage := w.inviteMessage }) := by
  obtain ⟨request, rest, h1, h2⟩ := run_starts_with_query sock r k (w.record eff)
  refine ⟨request, rest, ?_, fun e he => ?_⟩
  · rw [h1]
    simp [World.record]
  · rw [h2 e he]
    simp [World.record]

/-! ## Properties of the operations -/

/-- C1: for a response whose community node has an id attribute `x`, the
extracted metadata has id `x ++ "@g.us"` when `x` contains no `@`, and id `x`
unchanged when `x` contains `@`. -/
theorem extractCommunityMetadata_id (wa : WABinary) (result community : BinaryNode)
    (x : String)
    (hnode : getBinaryNodeChild result "community" = some community)
    (hid : getAttr community.attrs "id" = some x) :
    ('@' ∉ x.data →
      ∃ m, extractCommunityMetadata wa result = .ok m ∧ m.id = x ++ "@g.us") ∧
    ('@' ∈ x.data →
      ∃ m, extractCommunityMetadata wa result = .ok m ∧ m.id = x) := by
  refine ⟨fun hx => ⟨communityMetadataOf wa community, ?_, ?_⟩,
    fun hx => ⟨communityMetadataOf wa community, ?_, ?_⟩⟩
  · simp [extractCommunityMetadata, hnode]
  · have hinc : includesAt x = false := by
      simpa [includesAt] using hx
    by_cases hempty : x = ""
    · subst hempty
      simp [communityMetadataOf, communityId, hid, hinc, orElse, jidEncode]
    · simp [communityMetadataOf, communityId, hid, hinc, orElse, jidEncode, hempty,
        String.append_assoc]
  · simp [extractCommunityMetadata, hnode]
  · have hinc : includesAt x = true := by
      simpa [includesAt] using hx
    simp [communityMetadataOf, communityId, hid, hinc]

/-- Instances of C1: the id attribute `123` gives `123@g.us`, and the id
attribute `123@g.us` is returned unchanged. -/
theorem extractCommunityMetadata_id_witness :
    (∃ m, extractCommunityMetadata exampleWABinary (responseWith [("id", "123")] []) = .ok m ∧
      m.id = "123" ++ "@g.us") ∧
    (∃ m, extractCommunityMetadata exampleWABinary (responseWith [("id", "123@g.us")] []) =
        .ok m ∧ m.id = "123@g.us") :=
  ⟨(extractCommunityMetadata_id exampleWABinary (responseWith [("id", "123")] [])
      (.mk "community" [("id", "123")] (.nodes [])) "123" rfl rfl).1 (by decide),
   (extractCommunityMetadata_id exampleWABinary (responseWith [("id", "123@g.us")] [])
      (.mk "community" [("id", "123@g.us")] (.nodes [])) "123@g.us" rfl rfl).2 (by decide)⟩

/-- C2 (as stated) fails: on a socket whose query fails, a dirty signal of type
`communities` leads to the fetch query and nothing more; the handler fails
and no acknowledgment is issued. -/
theorem dirtyHandler_no_ack_when_fetch_fails :
    getBinaryNodeChild dirtySignal "dirty" = some (.mk "dirty" [("type", "communities")] .absent) ∧
    (run offlineSock (dirtyHandler exampleWABinary dirtySignal) emptyWorld).1 =
      .error (.thrown "timed out") ∧
    (run offlineSock (dirtyHandler exampleWABinary dirtySignal) emptyWorld).2.trace =
      [.query fetchAllRequest] ∧
    ∀ ty, Effect.cleanDirtyBits ty ∉
      (run offlineSock (dirtyHandler exampleWABinary dirtySignal) emptyWorld).2.trace := by
  have hrun : run offlineSock (dirtyHandler exampleWABinary dirtySignal) emptyWorld =
      (.error (.thrown "timed out"), emptyWorld.record (.query fetchAllRequest)) := by
    simp [dirtySignal, dirtyHandler, getBinaryNodeChild, BinaryNode.children, BinaryNode.tag,
      BinaryNode.attrs, getAttr, List.lookup, run_bind, run_fetchAll_error offlineSock _ _
      (.thrown "timed out") rfl]
  refine ⟨rfl, ?_, ?_, ?_⟩
  · rw [hrun]
  · rw [hrun]
    rfl
  · intro ty
    rw [hrun]
    simp [World.record, emptyWorld]

/-- C2 (amended): for a dirty signal whose `dirty` child has type
`communities` and whose fetch query succeeds, the handler performs exactly the
full fetch (one query, one `groups.update` event) and then exactly one
`cleanDirtyBits`, in that order; for a dirty signal of any other type it
performs no effect at all and returns. -/
theorem dirtyHandler_effects (sock : Sock) (wa : WABinary) (node dirty : BinaryNode)
    (w : World) (hdirty : getBinaryNodeChild node "dirty" = some dirty) :
    (getAttr dirty.attrs "type" = some "communities" →
      ∀ result, sock.query w.trace fetchAllRequest = .ok result →
        ∃ data, participatingData wa result = .ok data ∧
          (run sock (dirtyHandler wa node) w).2.trace =
            w.trace ++ [.query fetchAllRequest,
              .emit "groups.update" (.groups (data.map (fun kv => kv.2))),
              .cleanDirtyBits "groups"]) ∧
    (getAttr dirty.attrs "type" ≠ some "communities" →
      run sock (dirtyHandler wa node) w = (.ok (), w)) := by
  constructor
  · intro hty result hq
    obtain ⟨data, hd⟩ := participatingData_ok wa result
    refine ⟨data, hd, ?_⟩
    simp only [dirtyHandler, hdirty, hty, bne_self_eq_false, Bool.false_eq_true, if_false,
      bind_eq, run_bind, run_fetchAll_ok sock wa w result data hq hd, Call.cleanDirtyBits, run,
      World.record]
    cases sock.cleanDirtyBits _ "groups" <;> simp
  · intro hty
    simp [dirtyHandler, hdirty, hty, run]

/-- Instances of C2 (amended): on a socket that answers the fetch, a
`communities` signal gives query, event, acknowledgment; a `groups` signal
gives no effect. -/
theorem dirtyHandler_effects_witness :
    (∃ data, participatingData exampleWABinary
        (.mk "iq" [("type", "result"), ("from", "1203630@g.us")] .absent) = .ok data ∧
      (run quietSock (dirtyHandler exampleWABinary dirtySignal) emptyWorld).2.trace =
        emptyWorld.trace ++ [.query fetchAllRequest,
          .emit "groups.update" (.groups (data.map (fun kv => kv.2))),
          .cleanDirtyBits "groups"]) ∧
    run quietSock (dirtyHandler exampleWABinary otherDirtySignal) emptyWorld =
      (.ok (), emptyWorld) :=
  ⟨(dirtyHandler_effects quietSock exampleWABinary dirtySignal
      (.mk "dirty" [("type", "communities")] .absent) emptyWorld rfl).1 rfl _ rfl,
   (dirtyHandler_effects quietSock exampleWABinary otherDirtySignal
      (.mk "dirty" [("type", "groups")] .absent) emptyWorld rfl).2 (by decide)⟩

/-- C3 (as stated) fails: the expiration `1e21` is sent as `1e+21`, which is not
its decimal string, and the expiration `2 ^ 56` is sent as
`72057594037927940`, a digit string that denotes another number. -/
theorem communityToggleEphemeral_large_expiration :
    (run quietSock (communityToggleEphemeral "123@g.us" (10 ^ 21)) emptyWorld).2.trace =
      [.query (.mk "iq" [("type", "set"), ("xmlns", "w:g2"), ("to", "123@g.us")]
        (.nodes [.mk "ephemeral" [("expiration", "1e+21")] .absent]))] ∧
    isDecimal "1e+21" = false ∧
    (run quietSock (communityToggleEphemeral "123@g.us" (2 ^ 56)) emptyWorld).2.trace =
      [.query (.mk "iq" [("type", "set"), ("xmlns", "w:g2"), ("to", "123@g.us")]
        (.nodes [.mk "ephemeral" [("expiration", "72057594037927940")] .absent]))] ∧
    decimalValue "72057594037927940" ≠ 2 ^ 56 := by
  have h21 : numberToString (10 ^ 21) = "1e+21" := by decide!
  have h56 : numberToString (2 ^ 56) = "72057594037927940" := by decide!
  have hrun : ∀ n : Nat, n ≠ 0 →
      (run quietSock (communityToggleEphemeral "123@g.us" n) emptyWorld).2.trace =
        [.query (.mk "iq" [("type", "set"), ("xmlns", "w:g2"), ("to", "123@g.us")]
          (.nodes [.mk "ephemeral" [("expiration", numberToString n)] .absent]))] := by
    intro n hn
    simp [communityToggleEphemeral, communityQuery, Call.query, Prog.bind, run, quietSock,
      ephemeralContent, hn, World.record, emptyWorld]
  refine ⟨?_, by decide, ?_, by decide⟩
  · rw [hrun (10 ^ 21) (by decide), h21]
  · rw [hrun (2 ^ 56) (by decide), h56]

/-- C3 (amended): `communityToggleEphemeral(jid, n)` dispatches one `set` request
to `jid` with a single child: `not_ephemeral` without attributes when `n` is
zero, and `ephemeral` with the one attribute `expiration` when `n` is a
positive integer, its value being what `toString` prints for `n`; for `n`
below `2 ^ 53` that is the decimal string of `n` (a run of decimal digits that
denotes `n`). -/
theorem communityToggleEphemeral_request (sock : Sock) (jid : String) (n : Nat) (w : World) :
    ∃ child,
      (run sock (communityToggleEphemeral jid n) w).2.trace =
        w.trace ++ [.query (.mk "iq" [("type", "set"), ("xmlns", "w:g2"), ("to", jid)]
          (.nodes [child]))] ∧
      (n = 0 → child = .mk "not_ephemeral" [] .absent) ∧
      (0 < n → ∃ s, child = .mk "ephemeral" [("expiration", s)] .absent ∧
        s = numberToString n ∧
        (n < 2 ^ 53 → s = Nat.repr n ∧ isDecimal s = true ∧ decimalValue s = n)) := by
  refine ⟨ephemeralContent n, ?_, ?_, ?_⟩
  · simp only [communityToggleEphemeral, communityQuery, Call.query, bind_eq, pure_eq,
      Prog.bind, run]
    cases sock.query w.trace _ <;> simp [World.record, run]
  · intro hn
    simp [ephemeralContent, hn]
  · intro hn
    have hne : n ≠ 0 := by omega
    refine ⟨numberToString n, by simp [ephemeralContent, hne], rfl, fun hlt => ?_⟩
    rw [numberToString_of_lt n hlt]
    exact ⟨rfl, isDecimal_repr n, decimalValue_repr n⟩

/-- Instances of C3 (amended): expiration 0 gives `not_ephemeral`, expiration
3600 gives `ephemeral` with expiration `3600`. -/
theorem communityToggleEphemeral_request_witness :
    (∃ child,
      (run quietSock (communityToggleEphemeral "123@g.us" 0) emptyWorld).2.trace =
        emptyWorld.trace ++
          [.query (.mk "iq" [("type", "set"), ("xmlns", "w:g2"), ("to", "123@g.us")]
            (.nodes [child]))] ∧
      child = .mk "not_ephemeral" [] .absent) ∧
    (∃ child,
      (run quietSock (communityToggleEphemeral "123@g.us" 3600) emptyWorld).2.trace =
        emptyWorld.trace ++
          [.query (.mk "iq" [("type", "set"), ("xmlns", "w:g2"), ("to", "123@g.us")]
            (.nodes [child]))] ∧
      child = .mk "ephemeral" [("expiration", "3600")] .absent) :=
  ⟨match communityToggleEphemeral_request quietSock "123@g.us" 0 emptyWorld with
    | ⟨child, htrace, hzero, _⟩ => ⟨child, htrace, hzero rfl⟩,
   match communityToggleEphemeral_request quietSock "123@g.us" 3600 emptyWorld with
    | ⟨child, htrace, _, hpos⟩ =>
      match hpos (by decide) with
      | ⟨s, hchild, _, hsafe⟩ =>
        ⟨child, htrace, by rw [hchild, (hsafe (by decide)).1]; rfl⟩⟩

/-- C4: for a response with a community node, `ephemeralDuration` is undefined
when the node has no `ephemeral` child; when its `ephemeral` child (the first
one, should there be several) has a non-empty expiration attribute made of
decimal digits, `ephemeralDuration` is the number those digits denote: the
double of that value, which is the value itself below `2 ^ 53`. -/
theorem extractCommunityMetadata_ephemeralDuration (wa : WABinary)
    (result community : BinaryNode)
    (hnode : getBinaryNodeChild result "community" = some community) :
    ((∀ c ∈ community.children, c.tag ≠ "ephemeral") →
      ∃ m, extractCommunityMetadata wa result = .ok m ∧ m.ephemeralDuration = none) ∧
    (∀ eph s, getBinaryNodeChild community "ephemeral" = some eph →
      getAttr eph.attrs "expiration" = some s → s ≠ "" → isDecimal s = true →
      ∃ m, extractCommunityMetadata wa result = .ok m ∧
        m.ephemeralDuration = some (JSNumber.ofNat (decimalValue s)) ∧
        (decimalValue s < 2 ^ 53 → m.ephemeralDuration = some (.int (decimalValue s)))) := by
  constructor
  · intro hno
    have hchild : getBinaryNodeChild community "ephemeral" = none :=
      (getBinaryNodeChild_eq_none community "ephemeral").2 hno
    exact ⟨communityMetadataOf wa community, by simp [extractCommunityMetadata, hnode],
      by simp [communityMetadataOf, hchild, truthy]⟩
  · intro eph s heph hs hne hdec
    refine ⟨communityMetadataOf wa community, by simp [extractCommunityMetadata, hnode], ?_⟩
    have hval : (communityMetadataOf wa community).ephemeralDuration =
        some (JSNumber.ofNat (decimalValue s)) := by
      simp [communityMetadataOf, heph, hs, truthy, hne, toNumber, hdec]
    refine ⟨hval, fun hlt => ?_⟩
    rw [hval, JSNumber.ofNat_of_lt _ hlt]

/-- Instances of C4: no `ephemeral` child gives undefined, and the expiration
`3600` gives the number 3600. -/
theorem extractCommunityMetadata_ephemeralDuration_witness :
    (∃ m, extractCommunityMetadata exampleWABinary (responseWith [("id", "123")] []) = .ok m ∧
      m.ephemeralDuration = none) ∧
    (∃ m, extractCommunityMetadata exampleWABinary
        (responseWith [("id", "123")] [.mk "ephemeral" [("expiration", "3600")] .absent]) =
          .ok m ∧
      m.ephemeralDuration = some (JSNumber.ofNat (decimalValue "3600")) ∧
      (decimalValue "3600" < 2 ^ 53 → m.ephemeralDuration = some (.int (decimalValue "3600")))) :=
  ⟨(extractCommunityMetadata_ephemeralDuration exampleWABinary (responseWith [("id", "123")] [])
      (.mk "community" [("id", "123")] (.nodes [])) rfl).1 (by simp [BinaryNode.children]),
   (extractCommunityMetadata_ephemeralDuration exampleWABinary
      (responseWith [("id", "123")] [.mk "ephemeral" [("expiration", "3600")] .absent])
      (.mk "community" [("id", "123")]
        (.nodes [.mk "ephemeral" [("expiration", "3600")] .absent])) rfl).2
      (.mk "ephemeral" [("expiration", "3600")] .absent) "3600" rfl rfl (by decide) (by decide)⟩

/-- C5 (as stated) fails: a participant whose type attribute is present but
empty gets the role `null`, not its type attribute. -/
theorem extractCommunityMetadata_admin_empty_type :
    getAttr (BinaryNode.mk "participant" [("jid", "4915@s.whatsapp.net"), ("type", "")]
      .absent).attrs "type" = some "" ∧
    (extractCommunityMetadata exampleWABinary
      (responseWith [("id", "123")]
        [.mk "participant" [("jid", "4915@s.whatsapp.net"), ("type", "")] .absent])).map
      (fun m => m.participants) =
        .ok [{ id := some "4915@s.whatsapp.net", admin := none }] := by
  constructor <;> rfl

/-- C5 (amended): for every community node, `size` is the number of
`participant` children and `participants` has that same length, holding one
record per participant child in response order, with id the child's jid
attribute and admin the child's type attribute when that is present and
non-empty, `null` otherwise; with no participant child, size is 0 and
participants is empty. -/
theorem extractCommunityMetadata_participants (wa : WABinary) (result community : BinaryNode)
    (hnode : getBinaryNodeChild result "community" = some community) :
    ∃ m, extractCommunityMetadata wa result = .ok m ∧
      m.size = (community.children.filter (fun c => c.tag == "participant")).length ∧
      m.participants.length = m.size ∧
      m.participants =
        (community.children.filter (fun c => c.tag == "participant")).map
          (fun p =>
            { id := getAttr p.attrs "jid"
              admin :=
                match getAttr p.attrs "type" with
                | some ty => if ty = "" then none else some ty
                | none => none }) ∧
      ((∀ c ∈ community.children, c.tag ≠ "participant") →
        m.size = 0 ∧ m.participants = []) := by
  refine ⟨communityMetadataOf wa community, by simp [extractCommunityMetadata, hnode], rfl,
    by simp [communityMetadataOf], ?_, ?_⟩
  · simp only [communityMetadataOf, getBinaryNodeChildren]
    apply List.map_congr_left
    intro p _
    cases h : getAttr p.attrs "type" with
    | none => simp [orUndefined]
    | some ty => by_cases hty : ty = "" <;> simp [orUndefined, hty]
  · intro hno
    have hnil : community.children.filter (fun c => c.tag == "participant") = [] := by
      simpa [List.filter_eq_nil_iff] using hno
    simp [communityMetadataOf, getBinaryNodeChildren, hnil]

/-- Instances of C5 (amended): a node with two participant children among
other children, and a node with none. -/
theorem extractCommunityMetadata_participants_witness :
    (∃ m, extractCommunityMetadata exampleWABinary sampleResponse = .ok m ∧
      m.size = 2 ∧
      m.participants =
        [{ id := some "4915@s.whatsapp.net", admin := some "superadmin" },
         { id := some "4916@s.whatsapp.net", admin := none }]) ∧
    (∃ m, extractCommunityMetadata exampleWABinary (responseWith [("id", "123")] []) = .ok m ∧
      m.size = 0 ∧ m.participants = []) :=
  ⟨match extractCommunityMetadata_participants exampleWABinary sampleResponse sampleCommunity
        rfl with
    | ⟨m, hm, hsize, _, hpart, _⟩ => ⟨m, hm, hsize.trans rfl, hpart.trans rfl⟩,
   match extractCommunityMetadata_participants exampleWABinary
        (responseWith [("id", "123")] []) (.mk "community" [("id", "123")] (.nodes [])) rfl with
    | ⟨m, hm, _, _, _, hzero⟩ =>
      ⟨m, hm, hzero (by simp [BinaryNode.children])⟩⟩

/-- C6: for a response with a community node, a missing `s_t` gives
subjectTime 0, a missing `creation` gives creation 0, a missing `subject` gives
the empty subject, a missing `s_o` gives an undefined subjectOwner and a
missing `creator` gives an undefined owner. -/
theorem extractCommunityMetadata_defaults (wa : WABinary) (result community : BinaryNode)
    (hnode : getBinaryNodeChild result "community" = some community) :
    ∃ m, extractCommunityMetadata wa result = .ok m ∧
      (getAttr community.attrs "s_t" = none → m.subjectTime = .int 0) ∧
      (getAttr community.attrs "creation" = none → m.creation = .int 0) ∧
      (getAttr community.attrs "subject" = none → m.subject = "") ∧
      (getAttr community.attrs "s_o" = none → m.subjectOwner = none) ∧
      (getAttr community.attrs "creator" = none → m.owner = none) := by
  refine ⟨communityMetadataOf wa community, by simp [extractCommunityMetadata, hnode],
    ?_, ?_, ?_, ?_, ?_⟩ <;> intro h <;>
    simp [communityMetadataOf, h, numberOrZero, orElse, truthy]

/-- Instance of C6: a community node that carries an id only. -/
theorem extractCommunityMetadata_defaults_witness :
    ∃ m, extractCommunityMetadata exampleWABinary (responseWith [("id", "123")] []) = .ok m ∧
      m.subjectTime = .int 0 ∧ m.creation = .int 0 ∧ m.subject = "" ∧
      m.subjectOwner = none ∧ m.owner = none :=
  match extractCommunityMetadata_defaults exampleWABinary (responseWith [("id", "123")] [])
      (.mk "community" [("id", "123")] (.nodes [])) rfl with
  | ⟨m, hm, h1, h2, h3, h4, h5⟩ => ⟨m, hm, h1 rfl, h2 rfl, h3 rfl, h4 rfl, h5 rfl⟩

/-- C7: when the accept query of `communityAcceptInviteV4` succeeds, the effects
that follow it are a `messages.update` event exactly when the key has a
non-empty id, carrying the invite message with expiration 0 and empty code,
and then, in both cases, exactly one `upsertMessage` of type `notify` whose
message has stub type 21, remoteJid the invite's groupJid and participant the
key's remoteJid.  A bare string key is the key `{remoteJid: key}` and leads to
no update event. -/
theorem communityAcceptInviteV4_effects (sock : Sock) (keyArg : KeyArg) (w : World)
    (results : BinaryNode)
    (hq : sock.query w.trace (acceptRequest keyArg.normalize w.inviteMessage) = .ok results) :
    ∃ stub updates,
      (run sock (communityAcceptInviteV4 sock keyArg) w).2.trace =
        w.trace ++ [.query (acceptRequest keyArg.normalize w.inviteMessage)] ++ updates ++
          [.upsertMessage stub "notify"] ∧
      stub.messageStubType = 21 ∧
      stub.key.remoteJid = some w.inviteMessage.groupJid ∧
      stub.participant = keyArg.normalize.remoteJid ∧
      stub.key.participant = keyArg.normalize.remoteJid ∧
      (truthy keyArg.normalize.id = true →
        updates =
          [.emit "messages.update"
            (.messages [{ key := keyArg.normalize
                          groupInviteMessage :=
                            { w.inviteMessage with inviteExpiration := 0, inviteCode := "" } }])] ∧
        (run sock (communityAcceptInviteV4 sock keyArg) w).2.inviteMessage =
          { w.inviteMessage with inviteExpiration := 0, inviteCode := "" }) ∧
      (truthy keyArg.normalize.id = false →
        updates = [] ∧
        (run sock (communityAcceptInviteV4 sock keyArg) w).2.inviteMessage = w.inviteMessage) ∧
      ((∃ payload, Effect.emit "messages.update" payload ∈ updates) ↔
        truthy keyArg.normalize.id = true) ∧
      (∀ s, keyArg = .jid s →
        keyArg.normalize =
          { remoteJid := some s, fromMe := none, id := none, participant := none } ∧
        updates = []) := by
  refine ⟨acceptStub sock keyArg.normalize w.inviteMessage
      (w.trace ++ [.query (acceptRequest keyArg.normalize w.inviteMessage)] ++
        acceptUpdateEvents keyArg.normalize w.inviteMessage),
    acceptUpdateEvents keyArg.normalize w.inviteMessage, ?_, rfl, rfl, rfl, rfl, ?_, ?_, ?_, ?_⟩
  · rw [run_acceptInviteV4_ok sock keyArg w results hq]
  · intro hid
    rw [run_acceptInviteV4_ok sock keyArg w results hq]
    simp [acceptUpdateEvents, hid, consumedInvite]
  · intro hid
    rw [run_acceptInviteV4_ok sock keyArg w results hq]
    simp [acceptUpdateEvents, hid]
  · by_cases hid : truthy keyArg.normalize.id = true <;> simp [acceptUpdateEvents, hid]
  · intro s hs
    subst hs
    simp [KeyArg.normalize, acceptUpdateEvents, truthy]

/-- Instance of C7: a key with an id, on a socket whose query succeeds. -/
theorem communityAcceptInviteV4_effects_witness :
    ∃ stub updates,
      (run quietSock (communityAcceptInviteV4 quietSock (.key sampleKey)) emptyWorld).2.trace =
        emptyWorld.trace ++
          [.query (acceptRequest (KeyArg.key sampleKey).normalize emptyWorld.inviteMessage)] ++
          updates ++ [.upsertMessage stub "notify"] ∧
      stub.messageStubType = 21 ∧
      stub.key.remoteJid = some "1203630@g.us" ∧
      stub.participant = some "4916@s.whatsapp.net" ∧
      updates =
        [.emit "messages.update"
          (.messages [{ key := sampleKey
                        groupInviteMessage :=
                          { emptyWorld.inviteMessage with
                            inviteExpiration := 0, inviteCode := "" } }])] :=
  match communityAcceptInviteV4_effects quietSock (.key sampleKey) emptyWorld
      (.mk "iq" [("type", "result"), ("from", "1203630@g.us")] .absent) rfl with
  | ⟨stub, updates, htrace, h21, hjid, hpart, _, hyes, _, _, _⟩ =>
    ⟨stub, updates, htrace, h21, hjid, hpart, (hyes (by decide)).1⟩

/-- C8: `parseGroupResult` never throws: it returns `null` when the node has no
`group` child, `null` when the lookup of the group's metadata (under the id
attribute followed by `@g.us`) fails or yields nothing, and otherwise the
metadata the lookup returned. -/
theorem parseGroupResult_total (sock : Sock) (node : BinaryNode) (w : World) :
    (∃ r, (run sock (parseGroupResult node) w).1 = .ok r) ∧
    ((∀ c ∈ node.children, c.tag ≠ "group") →
      (run sock (parseGroupResult node) w).1 = .ok none) ∧
    (∀ g x, getBinaryNodeChild node "group" = some g → getAttr g.attrs "id" = some x →
      ((∃ e, sock.groupMetadata
            (w.trace ++ [.logInfo "parseGroupResult" node, .logInfo "groupNode" g])
            (x ++ "@g.us") = .error e) →
        (run sock (parseGroupResult node) w).1 = .ok none) ∧
      (sock.groupMetadata
            (w.trace ++ [.logInfo "parseGroupResult" node, .logInfo "groupNode" g])
            (x ++ "@g.us") = .ok none →
        (run sock (parseGroupResult node) w).1 = .ok none) ∧
      (∀ md, sock.groupMetadata
            (w.trace ++ [.logInfo "parseGroupResult" node, .logInfo "groupNode" g])
            (x ++ "@g.us") = .ok (some md) →
        (run sock (parseGroupResult node) w).1 = .ok (some md))) := by
  have hnone : getBinaryNodeChild node "group" = none →
      (run sock (parseGroupResult node) w).1 = .ok none := by
    intro h
    simp [parseGroupResult, Call.logInfo, Prog.bind, run, h]
  refine ⟨?_, fun hno => hnone ((getBinaryNodeChild_eq_none node "group").2 hno), ?_⟩
  · cases hg : getBinaryNodeChild node "group" with
    | none => exact ⟨none, hnone hg⟩
    | some g =>
      rw [run_parseGroupResult_some sock node g w hg]
      cases sock.groupMetadata _ _ with
      | error e => exact ⟨none, rfl⟩
      | ok md => cases md with
        | none => exact ⟨none, rfl⟩
        | some md => exact ⟨some md, rfl⟩
  · intro g x hg hx
    have hjid : groupJidOf (getAttr g.attrs "id") = x ++ "@g.us" := by
      simp [groupJidOf, hx]
    rw [run_parseGroupResult_some sock node g w hg, hjid]
    refine ⟨?_, ?_, ?_⟩
    · rintro ⟨e, he⟩
      rw [he]
    · intro h
      rw [h]
    · intro md h
      rw [h]

/-- Instances of C8: a response without a `group` child, one whose lookup
fails, and one whose lookup yields nothing. -/
theorem parseGroupResult_total_witness :
    (run quietSock (parseGroupResult sampleResponse) emptyWorld).1 = .ok none ∧
    (run lookupFailsSock (parseGroupResult createdResponse) emptyWorld).1 = .ok none ∧
    (run quietSock (parseGroupResult createdResponse) emptyWorld).1 = .ok none :=
  ⟨(parseGroupResult_total quietSock sampleResponse emptyWorld).2.1
      (by simp [sampleResponse, sampleCommunity, BinaryNode.children, BinaryNode.tag]),
   ((parseGroupResult_total lookupFailsSock createdResponse emptyWorld).2.2
      (.mk "group" [("id", "120363049999")] .absent) "120363049999" rfl rfl).1
      ⟨.thrown "item-not-found", rfl⟩,
   ((parseGroupResult_total quietSock createdResponse emptyWorld).2.2
      (.mk "group" [("id", "120363049999")] .absent) "120363049999" rfl rfl).2.1 rfl⟩

/-- C9: `extractCommunityMetadata` throws (the `TypeError` of reading a property
of `undefined`) exactly when the response has no `community` child, and returns
a metadata record exactly when it has one, whatever else the response holds. -/
theorem extractCommunityMetadata_fails_iff (wa : WABinary) (result : BinaryNode) :
    (extractCommunityMetadata wa result = .error .typeError ↔
      ∀ c ∈ result.children, c.tag ≠ "community") ∧
    ((∃ m, extractCommunityMetadata wa result = .ok m) ↔
      ∃ c ∈ result.children, c.tag = "community") ∧
    ((∃ e, extractCommunityMetadata wa result = .error e) ↔
      ∀ c ∈ result.children, c.tag ≠ "community") := by
  rw [← getBinaryNodeChild_eq_none]
  cases h : getBinaryNodeChild result "community" with
  | none =>
    have hno := (getBinaryNodeChild_eq_none result "community").1 h
    refine ⟨by simp [extractCommunityMetadata, h], ?_, by simp [extractCommunityMetadata, h]⟩
    simp only [extractCommunityMetadata, h, reduceCtorEq, exists_false, false_iff, not_exists,
      not_and]
    exact fun c hc => hno c hc
  | some community =>
    refine ⟨by simp [extractCommunityMetadata, h], ?_, by simp [extractCommunityMetadata, h]⟩
    have hmem := List.mem_of_find?_eq_some h
    have htag := List.find?_some h
    simp only [extractCommunityMetadata, h, Except.ok.injEq, exists_eq', true_iff]
    exact ⟨community, hmem, by simpa using htag⟩

/-- C10: every community operation, run from its definition, reaches a query
as its first effect (after the metadata lookup for
`communityFetchLinkedGroups`), and when that query fails with `e` the
operation fails with that same `e`, the failed query being its last effect and
the invite message unchanged; the same holds for the second query of
`communityUpdateDescription`.  In particular `communityFetchAllParticipating`
then emits no event, and `communityAcceptInviteV4` leaves the invite message as
it was, emits no event and appends no message. -/
theorem query_failure_propagates (sock : Sock) (wa : WABinary) :
    (∀ (op : Operation) (w : World),
      (∀ jid, op = .fetchLinkedGroups jid →
        ∃ metadata, sock.groupMetadata w.trace jid = .ok (some metadata)) →
      ∃ request rest,
        (run sock (perform sock wa op) w).2.trace =
          w.trace ++ (op.effectsBeforeQuery ++ [.query request]) ++ rest ∧
        ∀ e, sock.query (w.trace ++ op.effectsBeforeQuery) request = .error e →
          run sock (perform sock wa op) w =
            (.error e,
              { trace := w.trace ++ (op.effectsBeforeQuery ++ [.query request])
                inviteMessage := w.inviteMessage })) ∧
    (∀ (jid : String) (description : Option String) (w : World) (result : BinaryNode)
      (metadata : GroupMetadata),
      sock.query w.trace
        (.mk "iq" [("type", "get"), ("xmlns", "w:g2"), ("to", jid)]
          (.nodes [.mk "query" [("request", "interactive")] .absent])) = .ok result →
      extractCommunityMetadata wa result = .ok metadata →
      ∃ request rest,
        (run sock (communityUpdateDescription wa jid description) w).2.trace =
          w.trace ++
            [.query (.mk "iq" [("type", "get"), ("xmlns", "w:g2"), ("to", jid)]
              (.nodes [.mk "query" [("request", "interactive")] .absent])),
             .query request] ++ rest ∧
        ∀ e, sock.query
            (w.trace ++
              [.query (.mk "iq" [("type", "get"), ("xmlns", "w:g2"), ("to", jid)]
                (.nodes [.mk "query" [("request", "interactive")] .absent]))])
            request = .error e →
          run sock (communityUpdateDescription wa jid description) w =
            (.error e,
              { trace := w.trace ++
                  [.query (.mk "iq" [("type", "get"), ("xmlns", "w:g2"), ("to", jid)]
                    (.nodes [.mk "query" [("request", "interactive")] .absent])),
                   .query request]
                inviteMessage := w.inviteMessage })) ∧
    (∀ (w : World) (e : JSError), sock.query w.trace fetchAllRequest = .error e →
      run sock (communityFetchAllParticipating wa) w =
        (.error e,
          { trace := w.trace ++ [.query fetchAllRequest], inviteMessage := w.inviteMessage })) ∧
    (∀ (keyArg : KeyArg) (w : World) (e : JSError),
      sock.query w.trace (acceptRequest keyArg.normalize w.inviteMessage) = .error e →
      run sock (communityAcceptInviteV4 sock keyArg) w =
        (.error e,
          { trace := w.trace ++ [.query (acceptRequest keyArg.normalize w.inviteMessage)],
            inviteMessage := w.inviteMessage })) := by
  refine ⟨?_, ?_, fun w e hq => run_fetchAll_error sock wa w e hq,
    fun keyArg w e hq => run_acceptInviteV4_error sock keyArg w e hq⟩
  · intro op w hreach
    cases op
    case fetchLinkedGroups jid =>
      obtain ⟨metadata, hmd⟩ := hreach jid rfl
      simp only [perform, communityFetchLinkedGroups, communityQuery, Call.query,
        Call.groupMetadata, Prog.discard, bind_eq, pure_eq, Prog.bind, run_groupMetadata, hmd,
        Prog.ofExcept, Operation.effectsBeforeQuery, List.singleton_append]
      exact run_query_after_effect sock _ _ w _
    all_goals
      simp only [perform, communityMetadata, communityCreate, communityCreateGroup,
        communityLeave, communityUpdateSubject, communityLinkGroup, communityUnlinkGroup,
        communityRequestParticipantsList, communityRequestParticipantsUpdate,
        communityParticipantsUpdate, communityUpdateDescription, communityInviteCode,
        communityRevokeInvite, communityAcceptInvite, communityRevokeInviteV4,
        communityAcceptInviteV4, communityGetInviteInfo, communityToggleEphemeral,
        communitySettingUpdate, communityMemberAddMode, communityJoinApprovalMode,
        communityFetchAllParticipating, communityQuery, Call.query, Call.generateMessageID,
        Call.generateMessageIDV2, Call.readInvite, Prog.discard, bind_eq, pure_eq, Prog.bind,
        run_generateMessageID, run_generateMessageIDV2, run_readInvite,
        Operation.effectsBeforeQuery, List.nil_append, List.append_nil]
      exact run_starts_with_query sock _ _ w
  · intro jid description w result metadata hq hmeta
    simp only [communityUpdateDescription, communityMetadata, communityQuery, Call.query,
      bind_eq, pure_eq, Prog.bind]
    rw [run_query_ok sock _ result _ w hq]
    simp only [hmeta, Prog.ofExcept, Prog.bind]
    by_cases hd : truthy description = true
    · simp only [hd, if_true, Call.generateMessageID, bind_eq, pure_eq, Prog.bind,
        run_generateMessageID]
      exact run_query_after_effect sock _ _ w _
    · have hd1 : truthy description = false := Bool.eq_false_iff.2 hd
      simp only [hd1, Bool.false_eq_true, if_false, bind_eq, pure_eq, Prog.bind]
      exact run_query_after_effect sock _ _ w _

/-- Instances of C10 on sockets whose transport fails: leaving a community
and listing linked groups fail at their query with the error of the transport,
as does a description update whose second query fails, the full fetch and the
acceptance of an invite; the failed query is the last effect each time. -/
theorem query_failure_propagates_witness :
    (∃ request,
      run offlineSock (perform offlineSock exampleWABinary (.leave "123@g.us")) emptyWorld =
        (.error (.thrown "timed out"),
          { trace := emptyWorld.trace ++ [.query request],
            inviteMessage := emptyWorld.inviteMessage })) ∧
    (∃ request,
      run cutOffSock
          (perform cutOffSock exampleWABinary (.fetchLinkedGroups "120363041234567890@g.us"))
          emptyWorld =
        (.error (.thrown "timed out"),
          { trace := emptyWorld.trace ++
              [.groupMetadata "120363041234567890@g.us", .query request],
            inviteMessage := emptyWorld.inviteMessage })) ∧
    (∃ request,
      run flakySock
          (communityUpdateDescription exampleWABinary "120363041234567890@g.us" none)
          emptyWorld =
        (.error (.thrown "timed out"),
          { trace := emptyWorld.trace ++
              [.query (.mk "iq"
                [("type", "get"), ("xmlns", "w:g2"), ("to", "120363041234567890@g.us")]
                (.nodes [.mk "query" [("request", "interactive")] .absent])),
               .query request],
            inviteMessage := emptyWorld.inviteMessage })) ∧
    run offlineSock (communityFetchAllParticipating exampleWABinary) emptyWorld =
      (.error (.thrown "timed out"),
        { trace := emptyWorld.trace ++ [.query fetchAllRequest],
          inviteMessage := emptyWorld.inviteMessage }) ∧
    run offlineSock (communityAcceptInviteV4 offlineSock (.key sampleKey)) emptyWorld =
      (.error (.thrown "timed out"),
        { trace := emptyWorld.trace ++
            [.query (acceptRequest (KeyArg.key sampleKey).normalize emptyWorld.inviteMessage)],
          inviteMessage := emptyWorld.inviteMessage }) :=
  ⟨match (query_failure_propagates offlineSock exampleWABinary).1 (.leave "123@g.us")
        emptyWorld (fun _ h => Operation.noConfusion h) with
    | ⟨request, _, _, hfail⟩ => ⟨request, hfail (.thrown "timed out") rfl⟩,
   match (query_failure_propagates cutOffSock exampleWABinary).1
        (.fetchLinkedGroups "120363041234567890@g.us") emptyWorld
        (fun _ _ => ⟨sampleMetadata, rfl⟩) with
    | ⟨request, _, _, hfail⟩ => ⟨request, hfail (.thrown "timed out") rfl⟩,
   match (query_failure_propagates flakySock exampleWABinary).2.1
        "120363041234567890@g.us" none emptyWorld sampleResponse
        (communityMetadataOf exampleWABinary sampleCommunity) rfl rfl with
    | ⟨request, _, _, hfail⟩ => ⟨request, hfail (.thrown "timed out") rfl⟩,
   (query_failure_propagates offlineSock exampleWABinary).2.2.1 emptyWorld
      (.thrown "timed out") rfl,
   (query_failure_propagates offlineSock exampleWABinary).2.2.2 (.key sampleKey) emptyWorld
      (.thrown "timed out") rfl⟩

/-- C11: in the handler, for a dirty signal of type `communities`: once the
full fetch has returned (whatever the response held), the acknowledgment
`cleanDirtyBits` is the next effect and its outcome is the outcome of the
handler; when the fetch query fails with `e` the handler fails with `e`, the
query being its only effect, so no acknowledgment is issued. -/
theorem dirtyHandler_ack_after_fetch (sock : Sock) (wa : WABinary) (node dirty : BinaryNode)
    (w : World) (hdirty : getBinaryNodeChild node "dirty" = some dirty)
    (hty : getAttr dirty.attrs "type" = some "communities") :
    (∀ result, sock.query w.trace fetchAllRequest = .ok result →
      ∃ data, participatingData wa result = .ok data ∧
        run sock (dirtyHandler wa node) w =
          (sock.cleanDirtyBits
              (w.trace ++ [.query fetchAllRequest,
                .emit "groups.update" (.groups (data.map (fun kv => kv.2)))]) "groups",
            { trace := w.trace ++ [.query fetchAllRequest,
                .emit "groups.update" (.groups (data.map (fun kv => kv.2))),
                .cleanDirtyBits "groups"]
              inviteMessage := w.inviteMessage })) ∧
    (∀ e, sock.query w.trace fetchAllRequest = .error e →
      run sock (dirtyHandler wa node) w =
        (.error e,
          { trace := w.trace ++ [.query fetchAllRequest], inviteMessage := w.inviteMessage })) := by
  constructor
  · intro result hq
    obtain ⟨data, hd⟩ := participatingData_ok wa result
    refine ⟨data, hd, ?_⟩
    simp only [dirtyHandler, hdirty, hty, bne_self_eq_false, Bool.false_eq_true, if_false,
      bind_eq, run_bind, run_fetchAll_ok sock wa w result data hq hd, Call.cleanDirtyBits, run,
      World.record, List.append_assoc, List.singleton_append]
    cases sock.cleanDirtyBits _ "groups" <;> simp
  · intro e hq
    simp only [dirtyHandler, hdirty, hty, bne_self_eq_false, Bool.false_eq_true, if_false,
      bind_eq, run_bind, run_fetchAll_error sock wa w e hq, World.record]

/-- Instances of C11: on a socket that answers, the handler ends with the
acknowledgment; on a socket whose transport fails, it ends with the query. -/
theorem dirtyHandler_ack_after_fetch_witness :
    (∃ data, participatingData exampleWABinary
        (.mk "iq" [("type", "result"), ("from", "1203630@g.us")] .absent) = .ok data ∧
      run quietSock (dirtyHandler exampleWABinary dirtySignal) emptyWorld =
        (quietSock.cleanDirtyBits
            (emptyWorld.trace ++ [.query fetchAllRequest,
              .emit "groups.update" (.groups (data.map (fun kv => kv.2)))]) "groups",
          { trace := emptyWorld.trace ++ [.query fetchAllRequest,
              .emit "groups.update" (.groups (data.map (fun kv => kv.2))),
              .cleanDirtyBits "groups"]
            inviteMessage := emptyWorld.inviteMessage })) ∧
    run offlineSock (dirtyHandler exampleWABinary dirtySignal) emptyWorld =
      (.error (.thrown "timed out"),
        { trace := emptyWorld.trace ++ [.query fetchAllRequest],
          inviteMessage := emptyWorld.inviteMessage }) :=
  ⟨(dirtyHandler_ack_after_fetch quietSock exampleWABinary dirtySignal
      (.mk "dirty" [("type", "communities")] .absent) emptyWorld rfl rfl).1 _ rfl,
   (dirtyHandler_ack_after_fetch offlineSock exampleWABinary dirtySignal
      (.mk "dirty" [("type", "communities")] .absent) emptyWorld rfl rfl).2 _ rfl⟩

/-- C12 (as stated) fails: two calls of `communityCreate` with equal arguments
dispatch different payloads when the identifier generator returns a fresh
identifier for the second call, since the description carries that
identifier. -/
theorem communityCreate_payloads_differ :
    dispatched freshIdSock (communityCreate "Neighbours" (some "Street news")) emptyWorld ≠
      dispatched freshIdSock (communityCreate "Neighbours" (some "Street news"))
        (run freshIdSock (communityCreate "Neighbours" (some "Street news")) emptyWorld).2 := by
  have h1 : freshIdSock.generateMessageID emptyWorld.trace = "3EB0AAAAAAAAAAAAAAAA" := rfl
  have h2 : freshIdSock.generateMessageID
      (run freshIdSock (communityCreate "Neighbours" (some "Street news")) emptyWorld).2.trace =
        "3EB0BBBBBBBBBBBBBBBB" := rfl
  simp only [communityCreate, communityQuery, bind_eq, dispatched_generateMessageID_bind,
    dispatched_query_bind, dispatched_parseGroupResult, implies_true]
  rw [h1]
  simp only [communityCreate, communityQuery, bind_eq] at h2
  rw [h2]
  simp

/-- C12 (amended): every request builder is total, dispatching exactly one
payload whatever the socket answers; two calls with equal arguments (for
`communityAcceptInviteV4`, an equal invite message too) dispatch equal
payloads for every builder but `communityCreate` and `communityCreateGroup`,
and for these two as well when the identifier generator returns the same
identifier in both calls. -/
theorem builders_total_and_deterministic (wa : WABinary) (op : Operation)
    (hb : op.isBuilder = true) (sock1 sock2 : Sock) (w1 w2 : World)
    (hinv : w1.inviteMessage = w2.inviteMessage) :
    (∃ r, dispatched sock1 (perform sock1 wa op) w1 = [r]) ∧
    (op.generatesId = false →
      dispatched sock1 (perform sock1 wa op) w1 = dispatched sock2 (perform sock2 wa op) w2) ∧
    (sock1.generateMessageID w1.trace = sock2.generateMessageID w2.trace →
      sock1.generateMessageIDV2 w1.trace none = sock2.generateMessageIDV2 w2.trace none →
      dispatched sock1 (perform sock1 wa op) w1 = dispatched sock2 (perform sock2 wa op) w2) := by
  cases op <;> simp [Operation.isBuilder] at hb <;>
    simp only [perform, communityCreate, communityCreateGroup, communityLeave,
      communityUpdateSubject, communityLinkGroup,
      communityUnlinkGroup, communityInviteCode, communityRevokeInvite, communityAcceptInvite,
      communityRevokeInviteV4, communityToggleEphemeral, communitySettingUpdate,
      communityMemberAddMode, communityJoinApprovalMode, communityGetInviteInfo, communityQuery,
      bind_eq, pure_eq, dispatched_discard, dispatched_generateMessageID_bind,
      dispatched_generateMessageIDV2_bind, dispatched_acceptInviteV4,
      dispatched_query_bind, dispatched_pure, dispatched_parseGroupResult, dispatched_ofExcept,
      implies_true, Operation.generatesId]
  all_goals refine ⟨⟨_, rfl⟩, ?_, ?_⟩
  all_goals intros
  all_goals first
    | rfl
    | (rename_i h1 h2; rw [h1])
    | (rename_i h1 h2; rw [h2])
    | rw [hinv]
    | simp_all

/-- Instances of C12 (amended): renaming a community dispatches the same
single payload on a socket that answers and on one whose transport fails, in
different worlds; so does creating a community on two sockets whose
generator returns the same identifier. -/
theorem builders_total_and_deterministic_witness :
    (∃ r, dispatched quietSock
        (perform quietSock exampleWABinary (.updateSubject "123@g.us" "Neighbours"))
        emptyWorld = [r]) ∧
    dispatched quietSock
        (perform quietSock exampleWABinary (.updateSubject "123@g.us" "Neighbours")) emptyWorld =
      dispatched offlineSock
        (perform offlineSock exampleWABinary (.updateSubject "123@g.us" "Neighbours"))
        (emptyWorld.record (.cleanDirtyBits "groups")) ∧
    dispatched quietSock (perform quietSock exampleWABinary (.create "Neighbours" none))
        emptyWorld =
      dispatched lookupFailsSock
        (perform lookupFailsSock exampleWABinary (.create "Neighbours" none))
        (emptyWorld.record (.cleanDirtyBits "groups")) :=
  ⟨(builders_total_and_deterministic exampleWABinary (.updateSubject "123@g.us" "Neighbours")
      rfl quietSock offlineSock emptyWorld (emptyWorld.record (.cleanDirtyBits "groups")) rfl).1,
   (builders_total_and_deterministic exampleWABinary (.updateSubject "123@g.us" "Neighbours")
      rfl quietSock offlineSock emptyWorld (emptyWorld.record (.cleanDirtyBits "groups"))
      rfl).2.1 rfl,
   (builders_total_and_deterministic exampleWABinary (.create "Neighbours" none)
      rfl quietSock lookupFailsSock emptyWorld (emptyWorld.record (.cleanDirtyBits "groups"))
      rfl).2.2 rfl rfl⟩

/-- C13: whatever the id attribute of the community node (missing and empty
included), the extracted id contains `@`, and extracting from a community
node whose id attribute is that extracted id returns the same id. -/
theorem extractCommunityMetadata_id_idempotent (wa : WABinary) (result community : BinaryNode)
    (hnode : getBinaryNodeChild result "community" = some community) :
    ∃ m, extractCommunityMetadata wa result = .ok m ∧ '@' ∈ m.id.data ∧
      ∀ result2 community2, getBinaryNodeChild result2 "community" = some community2 →
        getAttr community2.attrs "id" = some m.id →
        ∃ m2, extractCommunityMetadata wa result2 = .ok m2 ∧ m2.id = m.id := by
  refine ⟨communityMetadataOf wa community, by simp [extractCommunityMetadata, hnode], ?_, ?_⟩
  · have h := communityId_includesAt (getAttr community.attrs "id")
    simpa [communityMetadataOf, includesAt] using h
  · intro result2 community2 hnode2 hid2
    refine ⟨communityMetadataOf wa community2, by simp [extractCommunityMetadata, hnode2], ?_⟩
    have hid : (communityMetadataOf wa community).id =
        communityId (getAttr community.attrs "id") := rfl
    have hid3 : (communityMetadataOf wa community2).id =
        communityId (getAttr community2.attrs "id") := rfl
    rw [hid3, hid2, hid, communityId_idem]

/-- Instance of C13: a community node without id attribute gives the id
`@g.us`, and a node with the id attribute `@g.us` gives `@g.us` again. -/
theorem extractCommunityMetadata_id_idempotent_witness :
    ∃ m, extractCommunityMetadata exampleWABinary (responseWith [] []) = .ok m ∧
      m.id = "@g.us" ∧ '@' ∈ m.id.data ∧
      ∃ m2, extractCommunityMetadata exampleWABinary (responseWith [("id", "@g.us")] []) =
        .ok m2 ∧ m2.id = m.id :=
  match extractCommunityMetadata_id_idempotent exampleWABinary (responseWith [] [])
      (.mk "community" [] (.nodes [])) rfl with
  | ⟨m, hm, hat, hagain⟩ =>
    have hmid : m.id = "@g.us" := by
      have h : (Except.ok m : Except JSError GroupMetadata) =
          .ok (communityMetadataOf exampleWABinary (.mk "community" [] (.nodes []))) :=
        hm.symm.trans rfl
      injection h with h
      rw [h]
      rfl
    ⟨m, hm, hmid, hat,
      hagain (responseWith [("id", "@g.us")] []) (.mk "community" [("id", "@g.us")] (.nodes []))
        rfl (by rw [hmid]; rfl)⟩

/-- C15: `communityFetchAllParticipating` sends one `get` request to `@g.us`
holding a `participating` node without filter.  For every response, it emits
one `groups.update` event, carrying the values of the mapping it returns, and
returns that mapping: without a `communities` child it is empty; otherwise it
has, for every `community` child, an entry under the child's canonical id
whose value is the metadata extracted from a child with that canonical id, the
last such child; it has no other entries and no key twice. -/
theorem communityFetchAllParticipating_result (sock : Sock) (wa : WABinary) (w : World)
    (result : BinaryNode) (hq : sock.query w.trace fetchAllRequest = .ok result) :
    fetchAllRequest =
      .mk "iq" [("to", "@g.us"), ("xmlns", "w:g2"), ("type", "get")]
        (.nodes [.mk "participating" []
          (.nodes [.mk "participants" [] .absent, .mk "description" [] .absent])]) ∧
    ∃ data,
      run sock (communityFetchAllParticipating wa) w =
        (.ok data,
          { trace := w.trace ++ [.query fetchAllRequest,
              .emit "groups.update" (.groups (data.map (fun kv => kv.2)))]
            inviteMessage := w.inviteMessage }) ∧
      (data.map (fun kv => kv.1)).Nodup ∧
      (getBinaryNodeChild result "communities" = none → data = []) ∧
      (∀ communitiesChild, getBinaryNodeChild result "communities" = some communitiesChild →
        (∀ c ∈ communitiesChild.children.filter (fun c => c.tag == "community"),
          ∃ cl ∈ communitiesChild.children.filter (fun c => c.tag == "community"),
            communityId (getAttr cl.attrs "id") = communityId (getAttr c.attrs "id") ∧
            ∃ v, extractCommunityMetadata wa (.mk "result" [] (.nodes [cl])) = .ok v ∧
              data.lookup (communityId (getAttr c.attrs "id")) = some v) ∧
        (∀ pre cl post,
          communitiesChild.children.filter (fun c => c.tag == "community") = pre ++ cl :: post →
          (∀ c ∈ post,
            communityId (getAttr c.attrs "id") ≠ communityId (getAttr cl.attrs "id")) →
          ∃ v, extractCommunityMetadata wa (.mk "result" [] (.nodes [cl])) = .ok v ∧
            data.lookup (communityId (getAttr cl.attrs "id")) = some v) ∧
        (∀ kv ∈ data, ∃ c ∈ communitiesChild.children.filter (fun c => c.tag == "community"),
          kv.1 = communityId (getAttr c.attrs "id") ∧
          extractCommunityMetadata wa (.mk "result" [] (.nodes [c])) = .ok kv.2)) := by
  refine ⟨rfl, ?_⟩
  have hextract : ∀ c : BinaryNode, c.tag = "community" →
      extractCommunityMetadata wa (.mk "result" [] (.nodes [c])) =
        .ok (communityMetadataOf wa c) := by
    intro c hc
    have hfind : getBinaryNodeChild (.mk "result" [] (.nodes [c])) "community" = some c := by
      simp [getBinaryNodeChild, BinaryNode.children, hc]
    simp [extractCommunityMetadata, hfind]
  have hworld : ∀ data : List (String × GroupMetadata),
      (w.record (.query fetchAllRequest)).record
          (.emit "groups.update" (.groups (data.map (fun kv => kv.2)))) =
        { trace := w.trace ++ [.query fetchAllRequest,
            .emit "groups.update" (.groups (data.map (fun kv => kv.2)))]
          inviteMessage := w.inviteMessage } := by
    intro data
    simp [World.record]
  cases hcc : getBinaryNodeChild result "communities" with
  | none =>
    have hd : participatingData wa result = .ok [] := by simp [participatingData, hcc]
    refine ⟨[], ?_, by simp, fun _ => rfl, ?_⟩
    · rw [run_fetchAll_ok sock wa w result [] hq hd, hworld]
    · intro cc h
      cases h
  | some cc =>
    have htags : ∀ c ∈ cc.children.filter (fun c => c.tag == "community"),
        c.tag = "community" := by
      intro c hc
      simpa using (List.mem_filter.1 hc).2
    have hd : participatingData wa result =
        .ok ((cc.children.filter (fun c => c.tag == "community")).foldl
          (fun d c => objectSet d (communityId (getAttr c.attrs "id"))
            (communityMetadataOf wa c)) []) := by
      simp only [participatingData, hcc, getBinaryNodeChildren]
      exact collectCommunities_eq wa _ htags
    refine ⟨(cc.children.filter (fun c => c.tag == "community")).foldl
      (fun d c => objectSet d (communityId (getAttr c.attrs "id"))
        (communityMetadataOf wa c)) [], ?_, ?_, ?_, ?_⟩
    · rw [run_fetchAll_ok sock wa w result _ hq hd, hworld]
    · exact nodup_keys_foldl _ _ _ [] (by simp)
    · intro h
      cases h
    · intro cc1 hcc1
      have hcceq : cc1 = cc := by
        injection hcc1 with h
        exact h.symm
      subst hcceq
      refine ⟨?_, ?_, ?_⟩
      · intro c hc
        obtain ⟨cl, hcl, hkey, hlook⟩ :=
          lookup_foldl_mem (fun c : BinaryNode => communityId (getAttr c.attrs "id"))
            (communityMetadataOf wa) _ [] c hc
        exact ⟨cl, hcl, hkey, communityMetadataOf wa cl, hextract cl (htags cl hcl), hlook⟩
      · intro pre cl post hsplit hpost
        have hcl : cl ∈ cc1.children.filter (fun c => c.tag == "community") := by
          rw [hsplit]
          simp
        refine ⟨communityMetadataOf wa cl, hextract cl (htags cl hcl), ?_⟩
        rw [hsplit]
        exact lookup_foldl_last (fun c : BinaryNode => communityId (getAttr c.attrs "id"))
          (communityMetadataOf wa) pre post cl hpost []
      · intro kv hkv
        rcases mem_foldl_objectSet (fun c : BinaryNode => communityId (getAttr c.attrs "id"))
          (communityMetadataOf wa) _ [] kv hkv with h | ⟨c, hc, hkvc⟩
        · simp at h
        · exact ⟨c, hc, by rw [hkvc], by rw [hkvc]; exact hextract c (htags c hc)⟩

/-- Instance of C15: of two communities under the canonical id `1@g.us`, the
later one is the value returned under that id. -/
theorem communityFetchAllParticipating_result_witness :
    ∃ data,
      run participatingSock (communityFetchAllParticipating exampleWABinary) emptyWorld =
        (.ok data,
          { trace := emptyWorld.trace ++ [.query fetchAllRequest,
              .emit "groups.update" (.groups (data.map (fun kv => kv.2)))]
            inviteMessage := emptyWorld.inviteMessage }) ∧
      ∃ v, extractCommunityMetadata exampleWABinary
          (.mk "result" []
            (.nodes [.mk "community" [("id", "1@g.us"), ("subject", "New name")] .absent])) =
            .ok v ∧
        data.lookup "1@g.us" = some v :=
  match communityFetchAllParticipating_result participatingSock exampleWABinary emptyWorld
      participatingResponse rfl with
  | ⟨_, data, hrun, _, _, hsome⟩ =>
    ⟨data, hrun,
      (hsome
        (.mk "communities" []
          (.nodes
            [.mk "community" [("id", "1"), ("subject", "Old name")] .absent,
             .mk "community" [("id", "2"), ("subject", "Other")] .absent,
             .mk "community" [("id", "1@g.us"), ("subject", "New name")] .absent]))
        rfl).2.1
        [.mk "community" [("id", "1"), ("subject", "Old name")] .absent,
         .mk "community" [("id", "2"), ("subject", "Other")] .absent]
        (.mk "community" [("id", "1@g.us"), ("subject", "New name")] .absent) [] rfl
        (by simp)⟩

/-- C16: `communityParticipantsUpdate(jid, participants, action)` dispatches one
`set` request whose child is tagged with the action, has the attributes
`{linked_groups: 'true'}` exactly when the action is `remove` (none
otherwise) and has one `participant` child per input jid, in input order.
When the query succeeds and the response has a node tagged with the action,
the result holds one entry per `participant` child of that node, in response
order: status is the child's error attribute when present and non-empty and
`200` otherwise, jid is its jid attribute and content is the child itself. -/
theorem communityParticipantsUpdate_result (sock : Sock) (jid : String)
    (participants : List String) (action : String) (w : World) :
    (run sock (communityParticipantsUpdate jid participants action) w).2.trace =
      w.trace ++ [.query (.mk "iq" [("type", "set"), ("xmlns", "w:g2"), ("to", jid)]
        (.nodes [.mk action (if action = "remove" then [("linked_groups", "true")] else [])
          (.nodes (participants.map
            (fun j => BinaryNode.mk "participant" [("jid", j)] .absent)))]))] ∧
    (∀ result node,
      sock.query w.trace (.mk "iq" [("type", "set"), ("xmlns", "w:g2"), ("to", jid)]
        (.nodes [.mk action (if action = "remove" then [("linked_groups", "true")] else [])
          (.nodes (participants.map
            (fun j => BinaryNode.mk "participant" [("jid", j)] .absent)))])) = .ok result →
      getBinaryNodeChild result action = some node →
      (run sock (communityParticipantsUpdate jid participants action) w).1 =
        .ok ((node.children.filter (fun c => c.tag == "participant")).map
          (fun p =>
            { status :=
                match getAttr p.attrs "error" with
                | some e => if e = "" then "200" else e
                | none => "200"
              jid := getAttr p.attrs "jid"
              content := some p }))) := by
  have hreq : (if (action == "remove") = true then [("linked_groups", "true")] else []) =
      (if action = "remove" then [("linked_groups", "true")] else
        ([] : List (String × String))) := by
    by_cases h : action = "remove" <;> simp [h]
  constructor
  · simp only [communityParticipantsUpdate, communityQuery, Call.query, bind_eq, pure_eq,
      Prog.bind, run, hreq]
    cases sock.query w.trace _ <;> simp [run, World.record]
  · intro result node hq hnode
    simp only [communityParticipantsUpdate, communityQuery, Call.query, bind_eq, pure_eq,
      Prog.bind, run, hreq, hq, hnode, getBinaryNodeChildrenOpt, getBinaryNodeChildren]
    congr 1
    apply List.map_congr_left
    intro p _
    cases h : getAttr p.attrs "error" with
    | none => simp [orElse]
    | some e => by_cases he : e = "" <;> simp [orElse, he]

/-- Instance of C16: removing two members, one of them refused with 403. -/
theorem communityParticipantsUpdate_result_witness :
    (run removeSock
        (communityParticipantsUpdate "123@g.us"
          ["4915@s.whatsapp.net", "4916@s.whatsapp.net"] "remove") emptyWorld).1 =
      .ok
        [{ status := "403", jid := some "4915@s.whatsapp.net",
           content := some (.mk "participant"
             [("jid", "4915@s.whatsapp.net"), ("error", "403")] .absent) },
         { status := "200", jid := some "4916@s.whatsapp.net",
           content := some (.mk "participant" [("jid", "4916@s.whatsapp.net")] .absent) }] :=
  ((communityParticipantsUpdate_result removeSock "123@g.us"
      ["4915@s.whatsapp.net", "4916@s.whatsapp.net"] "remove" emptyWorld).2 removeResponse
    (.mk "remove" []
      (.nodes
        [.mk "participant" [("jid", "4915@s.whatsapp.net"), ("error", "403")] .absent,
         .mk "participant" [("jid", "4916@s.whatsapp.net")] .absent]))
    rfl rfl).trans rfl

/-- C17 (as stated) fails: a `group` child whose id attribute is present but
empty gets an undefined id, not the attribute followed by `@g.us`. -/
theorem communityFetchLinkedGroups_empty_id :
    getAttr (BinaryNode.mk "group" [("id", "")] .absent).attrs "id" = some "" ∧
    (run subGroupsSock (communityFetchLinkedGroups exampleWABinary "120363041234567890@g.us")
        emptyWorld).1 =
      .ok { communityJid := "120363041234567890@g.us"
            isCommunity := true
            linkedGroups :=
              [{ id := some "120363049999@g.us", subject := "Gardening", creation := none,
                 owner := none, size := some (.int 12) },
               { id := none, subject := "", creation := none, owner := none, size := none }] } := by
  constructor <;> rfl

/-- C17 (amended): with the metadata of `jid` at hand and a successful query,
`communityFetchLinkedGroups(jid)` returns isCommunity = true and communityJid
= jid when the metadata has no linkedParent (or an empty one), and isCommunity
= false and communityJid = the linkedParent otherwise; linkedGroups holds one
summary per `group` child of the response's `sub_groups` node in response
order (none without that node), where id is the id attribute followed by
`@g.us` (undefined when missing or empty), subject defaults to the empty
string, and creation, owner and size are undefined when their attributes are
missing or empty. -/
theorem communityFetchLinkedGroups_result (sock : Sock) (wa : WABinary) (jid : String)
    (w : World) (metadata : GroupMetadata) (result : BinaryNode)
    (hmeta : sock.groupMetadata w.trace jid = .ok (some metadata))
    (hq : sock.query (w.trace ++ [.groupMetadata jid])
      (.mk "iq"
        [("type", "get"), ("xmlns", "w:g2"),
         ("to", if truthy metadata.linkedParent then metadata.linkedParent.getD jid else jid)]
        (.nodes [.mk "sub_groups" [] .absent])) = .ok result) :
    ∃ r, (run sock (communityFetchLinkedGroups wa jid) w).1 = .ok r ∧
      (truthy metadata.linkedParent = false → r.isCommunity = true ∧ r.communityJid = jid) ∧
      (∀ parent, metadata.linkedParent = some parent → parent ≠ "" →
        r.isCommunity = false ∧ r.communityJid = parent) ∧
      ((∀ c ∈ result.children, c.tag ≠ "sub_groups") → r.linkedGroups = []) ∧
      (∀ node, getBinaryNodeChild result "sub_groups" = some node →
        r.linkedGroups =
          (node.children.filter (fun c => c.tag == "group")).map
            (fun g =>
              { id :=
                  match getAttr g.attrs "id" with
                  | some i => if i = "" then none else some (i ++ "@g.us")
                  | none => none
                subject :=
                  match getAttr g.attrs "subject" with
                  | some s => s
                  | none => ""
                creation :=
                  match getAttr g.attrs "creation" with
                  | some s => if s = "" then none else some (toNumber s)
                  | none => none
                owner :=
                  match getAttr g.attrs "creator" with
                  | some s => if s = "" then none else some (wa.jidNormalizedUser s)
                  | none => none
                size :=
                  match getAttr g.attrs "size" with
                  | some s => if s = "" then none else some (toNumber s)
                  | none => none })) := by
  have hsummary : ∀ g : BinaryNode, linkedGroupOf wa g =
      { id :=
          match getAttr g.attrs "id" with
          | some i => if i = "" then none else some (i ++ "@g.us")
          | none => none
        subject :=
          match getAttr g.attrs "subject" with
          | some s => s
          | none => ""
        creation :=
          match getAttr g.attrs "creation" with
          | some s => if s = "" then none else some (toNumber s)
          | none => none
        owner :=
          match getAttr g.attrs "creator" with
          | some s => if s = "" then none else some (wa.jidNormalizedUser s)
          | none => none
        size :=
          match getAttr g.attrs "size" with
          | some s => if s = "" then none else some (toNumber s)
          | none => none } := by
    intro g
    unfold linkedGroupOf
    congr 1
    · cases h : getAttr g.attrs "id" with
      | none => simp [truthy]
      | some i =>
        by_cases hi : i = "" <;> simp [truthy, hi, jidEncode, String.append_assoc]
    · cases h : getAttr g.attrs "subject" with
      | none => simp [orElse]
      | some s => by_cases hs : s = "" <;> simp [orElse, hs]
    · cases h : getAttr g.attrs "creation" with
      | none => simp [truthy]
      | some s => by_cases hs : s = "" <;> simp [truthy, hs]
    · cases h : getAttr g.attrs "creator" with
      | none => simp [truthy]
      | some s => by_cases hs : s = "" <;> simp [truthy, hs]
    · cases h : getAttr g.attrs "size" with
      | none => simp [truthy]
      | some s => by_cases hs : s = "" <;> simp [truthy, hs]
  have hrun : (run sock (communityFetchLinkedGroups wa jid) w).1 =
      .ok { communityJid :=
              if truthy metadata.linkedParent then metadata.linkedParent.getD jid else jid
            isCommunity := !truthy metadata.linkedParent
            linkedGroups :=
              match getBinaryNodeChild result "sub_groups" with
              | some subGroupsNode =>
                (getBinaryNodeChildren subGroupsNode "group").map (linkedGroupOf wa)
              | none => [] } := by
    have hq1 : sock.query (w.record (.groupMetadata jid)).trace
        (.mk "iq"
          [("type", "get"), ("xmlns", "w:g2"),
           ("to", if truthy metadata.linkedParent then metadata.linkedParent.getD jid else jid)]
          (.nodes [.mk "sub_groups" [] .absent])) = .ok result := hq
    simp only [communityFetchLinkedGroups, Call.groupMetadata, communityQuery, Call.query,
      bind_eq, pure_eq, Prog.bind, run, hmeta, Prog.ofExcept, hq1]
  refine ⟨_, hrun, ?_, ?_, ?_, ?_⟩
  · intro h
    simp [h]
  · intro parent hp hne
    simp [hp, truthy, hne]
  · intro hno
    have hnone := (getBinaryNodeChild_eq_none result "sub_groups").2 hno
    simp [hnone]
  · intro node hnode
    simp only [hnode, getBinaryNodeChildren]
    apply List.map_congr_left
    intro g _
    exact hsummary g

/-- Instances of C17 (amended): a parentless community with two linked groups. -/
theorem communityFetchLinkedGroups_result_witness :
    ∃ r, (run subGroupsSock
        (communityFetchLinkedGroups exampleWABinary "120363041234567890@g.us") emptyWorld).1 =
          .ok r ∧
      r.isCommunity = true ∧ r.communityJid = "120363041234567890@g.us" ∧
      r.linkedGroups.length = 2 :=
  match communityFetchLinkedGroups_result subGroupsSock exampleWABinary
      "120363041234567890@g.us" emptyWorld sampleMetadata subGroupsResponse rfl rfl with
  | ⟨r, hr, hcomm, _, _, hgroups⟩ =>
    ⟨r, hr, (hcomm rfl).1, (hcomm rfl).2, by
      rw [hgroups
        (.mk "sub_groups" []
          (.nodes
            [.mk "group" [("id", "120363049999"), ("subject", "Gardening"), ("size", "12")]
               .absent,
             .mk "group" [("id", "")] .absent])) rfl]
      rfl⟩

/-- C18: `communityUpdateDescription(jid, description)` first fetches the
metadata of `jid`; when that succeeds it dispatches one `set` request holding
one `description` node.  For an absent or empty description the node has the
attribute `delete = 'true'`, no `id` and no content; for a non-empty
description it has the freshly generated `id`, no `delete`, and the single
child `body` holding the description.  In both cases the attribute `prev` is
present exactly when the fetched `descId` is non-empty, and then equals it. -/
theorem communityUpdateDescription_request (sock : Sock) (wa : WABinary) (jid : String)
    (description : Option String) (w : World) (result : BinaryNode) (metadata : GroupMetadata)
    (hq : sock.query w.trace
      (.mk "iq" [("type", "get"), ("xmlns", "w:g2"), ("to", jid)]
        (.nodes [.mk "query" [("request", "interactive")] .absent])) = .ok result)
    (hmeta : extractCommunityMetadata wa result = .ok metadata) :
    ∃ attrs content,
      (run sock (communityUpdateDescription wa jid description) w).2.trace =
        w.trace ++
          [.query (.mk "iq" [("type", "get"), ("xmlns", "w:g2"), ("to", jid)]
            (.nodes [.mk "query" [("request", "interactive")] .absent])),
           .query (.mk "iq" [("type", "set"), ("xmlns", "w:g2"), ("to", jid)]
            (.nodes [.mk "description" attrs content]))] ∧
      (truthy description = false →
        getAttr attrs "delete" = some "true" ∧ getAttr attrs "id" = none ∧
        content = .absent) ∧
      (∀ d, description = some d → d ≠ "" →
        getAttr attrs "id" =
          some (sock.generateMessageID
            (w.trace ++
              [.query (.mk "iq" [("type", "get"), ("xmlns", "w:g2"), ("to", jid)]
                (.nodes [.mk "query" [("request", "interactive")] .absent]))])) ∧
        getAttr attrs "delete" = none ∧
        content = .nodes [.mk "body" [] (.bytes (utf8 d))]) ∧
      (∀ prev, metadata.descId = some prev → prev ≠ "" → getAttr attrs "prev" = some prev) ∧
      (truthy metadata.descId = false → getAttr attrs "prev" = none) := by
  have hq1 : sock.query w.trace
      (.mk "iq" [("type", "get"), ("xmlns", "w:g2"), ("to", jid)]
        (.nodes [.mk "query" [("request", "interactive")] .absent])) = .ok result := hq
  have hprevCases :
      ((if truthy metadata.descId then attrOpt "prev" metadata.descId else []) = [] ∧
        truthy metadata.descId = false) ∨
      ∃ p, metadata.descId = some p ∧ p ≠ "" ∧
        (if truthy metadata.descId then attrOpt "prev" metadata.descId else []) =
          [("prev", p)] := by
    cases hdesc : metadata.descId with
    | none => exact Or.inl ⟨by simp [truthy], by simp [truthy]⟩
    | some p =>
      by_cases hp : p = ""
      · exact Or.inl ⟨by simp [truthy, hp], by simp [truthy, hp]⟩
      · exact Or.inr ⟨p, rfl, hp, by simp [truthy, hp, attrOpt]⟩
  refine ⟨(if truthy description then
        [("id", sock.generateMessageID
          (w.trace ++
            [.query (.mk "iq" [("type", "get"), ("xmlns", "w:g2"), ("to", jid)]
              (.nodes [.mk "query" [("request", "interactive")] .absent]))]))]
      else [("delete", "true")]) ++
      (if truthy metadata.descId then attrOpt "prev" metadata.descId else []),
    (match description with
     | some d => if d != "" then .nodes [.mk "body" [] (.bytes (utf8 d))] else .absent
     | none => .absent), ?_, ?_, ?_, ?_, ?_⟩
  · by_cases hd : truthy description = true
    · simp only [communityUpdateDescription, communityMetadata, communityQuery, Call.query,
        Call.generateMessageID, bind_eq, pure_eq, Prog.bind, run, hq1, hmeta, Prog.ofExcept,
        hd, if_true]
      split <;> simp [run, World.record]
    · have hd1 : truthy description = false := Bool.eq_false_iff.2 hd
      simp only [communityUpdateDescription, communityMetadata, communityQuery, Call.query,
        Call.generateMessageID, bind_eq, pure_eq, Prog.bind, run, hq1, hmeta, Prog.ofExcept,
        hd1, Bool.false_eq_true, if_false]
      split <;> simp [run, World.record]
  · intro hd
    rw [hd]
    rcases hprevCases with ⟨h, _⟩ | ⟨p, _, _, h⟩
    · rw [h]
      refine ⟨rfl, rfl, ?_⟩
      cases description with
      | none => rfl
      | some d =>
        have hde : d = "" := by simpa [truthy] using hd
        simp [hde]
    · rw [h]
      refine ⟨rfl, rfl, ?_⟩
      cases description with
      | none => rfl
      | some d =>
        have hde : d = "" := by simpa [truthy] using hd
        simp [hde]
  · intro d hd hne
    subst hd
    have ht : truthy (some d) = true := by simpa [truthy] using hne
    rw [ht]
    rcases hprevCases with ⟨h, _⟩ | ⟨p, _, _, h⟩ <;> rw [h] <;>
      simp [getAttr, List.lookup, hne]
  · intro prev hprev hne
    rcases hprevCases with ⟨_, ht⟩ | ⟨p, hp, _, h⟩
    · simp [hprev, truthy, hne] at ht
    · rw [h]
      have hpp : p = prev := by
        rw [hprev] at hp
        injection hp with hp
        exact hp.symm
      subst hpp
      by_cases hd : truthy description = true
      · rw [hd]
        simp [getAttr, List.lookup]
      · have hd1 : truthy description = false := Bool.eq_false_iff.2 hd
        rw [hd1]
        simp [getAttr, List.lookup]
  · intro hp
    rw [hp]
    by_cases hd : truthy description = true
    · rw [hd]
      simp [getAttr, List.lookup]
    · have hd1 : truthy description = false := Bool.eq_false_iff.2 hd
      rw [hd1]
      simp [getAttr, List.lookup]

/-- Instances of C18: on a community whose description id is `3EB0AA`, clearing
the description and setting a new one. -/
theorem communityUpdateDescription_request_witness :
    (∃ attrs content,
      (run metadataSock
          (communityUpdateDescription exampleWABinary "120363041234567890@g.us" none)
          emptyWorld).2.trace =
        emptyWorld.trace ++
          [.query (.mk "iq"
            [("type", "get"), ("xmlns", "w:g2"), ("to", "120363041234567890@g.us")]
            (.nodes [.mk "query" [("request", "interactive")] .absent])),
           .query (.mk "iq"
            [("type", "set"), ("xmlns", "w:g2"), ("to", "120363041234567890@g.us")]
            (.nodes [.mk "description" attrs content]))] ∧
      getAttr attrs "delete" = some "true" ∧ getAttr attrs "id" = none ∧ content = .absent ∧
      getAttr attrs "prev" = some "3EB0AA") ∧
    (∃ attrs content,
      (run metadataSock
          (communityUpdateDescription exampleWABinary "120363041234567890@g.us"
            (some "Street news, weekly"))
          emptyWorld).2.trace =
        emptyWorld.trace ++
          [.query (.mk "iq"
            [("type", "get"), ("xmlns", "w:g2"), ("to", "120363041234567890@g.us")]
            (.nodes [.mk "query" [("request", "interactive")] .absent])),
           .query (.mk "iq"
            [("type", "set"), ("xmlns", "w:g2"), ("to", "120363041234567890@g.us")]
            (.nodes [.mk "description" attrs content]))] ∧
      getAttr attrs "id" = some "3EB0F1E2D3C4B5A69788" ∧ getAttr attrs "delete" = none ∧
      content = .nodes [.mk "body" [] (.bytes (utf8 "Street news, weekly"))] ∧
      getAttr attrs "prev" = some "3EB0AA") :=
  ⟨match communityUpdateDescription_request metadataSock exampleWABinary
        "120363041234567890@g.us" none emptyWorld sampleResponse
        (communityMetadataOf exampleWABinary sampleCommunity) rfl rfl with
    | ⟨attrs, content, htrace, hdel, _, hprev, _⟩ =>
      ⟨attrs, content, htrace, (hdel rfl).1, (hdel rfl).2.1, (hdel rfl).2.2,
        hprev "3EB0AA" rfl (by decide)⟩,
   match communityUpdateDescription_request metadataSock exampleWABinary
        "120363041234567890@g.us" (some "Street news, weekly") emptyWorld sampleResponse
        (communityMetadataOf exampleWABinary sampleCommunity) rfl rfl with
    | ⟨attrs, content, htrace, _, hset, hprev, _⟩ =>
      ⟨attrs, content, htrace, (hset "Street news, weekly" rfl (by decide)).1,
        (hset "Street news, weekly" rfl (by decide)).2.1,
        (hset "Street news, weekly" rfl (by decide)).2.2,
        hprev "3EB0AA" rfl (by decide)⟩⟩

/-- C19: `makeWASocket(config)` hands `makeCommunitiesSocket` a configuration
in which every key other than `shouldSyncHistoryMessage` has the value from
`config` when `config` has the key and the default otherwise; when
`config.shouldSyncHistoryMessage` is `undefined`, `shouldSyncHistoryMessage`
is a predicate that returns, for every argument, whether the merged
`syncFullHistory` is truthy; otherwise it is the caller's value. -/
theorem makeWASocket_config {μ σ : Type} (makeCommunitiesSocket : SocketConfig μ → σ)
    (defaults config : SocketConfig μ) :
    ∃ newConfig, makeWASocket makeCommunitiesSocket defaults config =
        makeCommunitiesSocket newConfig ∧
      (∀ k, k ≠ "shouldSyncHistoryMessage" →
        newConfig k =
          match config k with
          | some v => some v
          | none => defaults k) ∧
      ((config.get "shouldSyncHistoryMessage").isUndefined = true →
        ∃ p, newConfig "shouldSyncHistoryMessage" = some (.predicate p) ∧
          ∀ msg, p msg = (newConfig.get "syncFullHistory").truthy) ∧
      ((config.get "shouldSyncHistoryMessage").isUndefined = false →
        newConfig "shouldSyncHistoryMessage" = config "shouldSyncHistoryMessage") := by
  by_cases hu : (config.get "shouldSyncHistoryMessage").isUndefined = true
  · refine ⟨(objectSpread defaults config).set "shouldSyncHistoryMessage"
      (.predicate (fun _ => ((objectSpread defaults config).get "syncFullHistory").truthy)),
      by simp [makeWASocket, hu], ?_, ?_, ?_⟩
    · intro k hk
      simp [SocketConfig.set, hk, objectSpread]
    · intro _
      refine ⟨fun _ => ((objectSpread defaults config).get "syncFullHistory").truthy,
        by simp [SocketConfig.set], ?_⟩
      intro msg
      have hne : ("syncFullHistory" : String) ≠ "shouldSyncHistoryMessage" := by decide
      simp [SocketConfig.get, SocketConfig.set, hne]
    · intro h
      rw [hu] at h
      cases h
  · have hf : (config.get "shouldSyncHistoryMessage").isUndefined = false :=
      Bool.eq_false_iff.2 hu
    refine ⟨objectSpread defaults config, by simp [makeWASocket, hf], ?_, ?_, ?_⟩
    · intro k _
      rfl
    · intro h
      exact absurd h hu
    · intro _
      cases hc : config "shouldSyncHistoryMessage" with
      | none => simp [SocketConfig.get, hc, ConfigValue.isUndefined] at hf
      | some v => simp [objectSpread, hc]

/-- Instance of C19: the caller asks for the full history and supplies no
predicate; the predicate passed on returns `true`, and the timeout keeps its
default. -/
theorem makeWASocket_config_witness :
    ∃ newConfig p,
      makeWASocket (fun c => c) sampleDefaults sampleConfig = newConfig ∧
      newConfig "shouldSyncHistoryMessage" = some (.predicate p) ∧ p () = true ∧
      newConfig "connectTimeoutMs" = sampleDefaults "connectTimeoutMs" :=
  match makeWASocket_config (fun c => c) sampleDefaults sampleConfig with
  | ⟨newConfig, hmk, hkeys, hundef, _⟩ =>
    match hundef rfl with
    | ⟨p, hp, hall⟩ =>
      ⟨newConfig, p, hmk, hp,
        (hall ()).trans (by
          have h := hkeys "syncFullHistory" (by decide)
          simp only [SocketConfig.get, h]
          rfl),
        (hkeys "connectTimeoutMs" (by decide)).trans rfl⟩

end Community
